import Mathlib

/-!
# User-level copy-on-write fork of JOS (`lib/fork.c`)

A shallow embedding of `pgfault`, `duppage`, `fork` and `sfork` over an explicit
kernel state.  The functions of `lib/fork.c` are translated statement by
statement.  The kernel primitives they call (`kern/syscall.c`), the constants and
macros of `inc/mmu.h`, `inc/memlayout.h`, `inc/env.h` and `inc/error.h`, and the
helpers `panic`, `memmove` and `set_pgfault_handler` are modelled from the
specification of the system and marked as such.

The state carries a ghost log of the primitive calls made, each with the run
states of all processes at the time of the call; it serves to state which calls a
function makes and in which order.
-/

namespace Jos

/-! ## Constants -/

/-- Modelled from the spec: the page size `PGSIZE` of `inc/mmu.h` (the size of one
"fixed-size block of memory", a frame), 4096 bytes on x86. -/
def PGSIZE : Nat := 4096

/-- Modelled from the spec: `PTSIZE` of `inc/mmu.h`, the bytes mapped by one
page-directory entry (1024 pages). -/
def PTSIZE : Nat := 1024 * PGSIZE

/-- Modelled from the spec: the "present" permission bit `PTE_P` of `inc/mmu.h`. -/
def PTE_P : Nat := 0x001

/-- Modelled from the spec: the "writable" permission bit `PTE_W` of `inc/mmu.h`. -/
def PTE_W : Nat := 0x002

/-- Modelled from the spec: the "user-accessible" permission bit `PTE_U` of
`inc/mmu.h`. -/
def PTE_U : Nat := 0x004

/-- Modelled from the spec: `PTE_AVAIL` of `inc/mmu.h`, the bits left to software
("process-defined convention bits"). -/
def PTE_AVAIL : Nat := 0xE00

/-- Modelled from the spec: the "explicit-share" convention bit `PTE_SHARE` of
`inc/lib.h`. -/
def PTE_SHARE : Nat := 0x400

/-- Modelled from the spec: `PTE_SYSCALL` of `inc/mmu.h`, the permission bits a
mapping primitive accepts: present, writable, user and the software bits. -/
def PTE_SYSCALL : Nat := PTE_AVAIL ||| PTE_P ||| PTE_W ||| PTE_U

/-- The copy-on-write bit, `#define PTE_COW 0x800` in `lib/fork.c`. -/
def PTE_COW : Nat := 0x800

/-- Modelled from the spec: the bit `FEC_WR` of `inc/mmu.h` that a fault's error
code carries when the fault "was a write". -/
def FEC_WR : Nat := 0x2

/-- Modelled from the spec: `UTOP` of `inc/memlayout.h`, the top of the
user-accessible address space. -/
def UTOP : Nat := 0xeec00000

/-- Modelled from the spec: `UXSTACKTOP` of `inc/memlayout.h`, the top of the
one-page fault-handling stack. -/
def UXSTACKTOP : Nat := UTOP

/-- Modelled from the spec: `USTACKTOP` of `inc/memlayout.h`, "the top of the user
stack region", two pages below `UTOP`. -/
def USTACKTOP : Nat := UTOP - 2 * PGSIZE

/-- Modelled from the spec: `UTEMP` of `inc/memlayout.h`. -/
def UTEMP : Nat := 0x00400000

/-- Modelled from the spec: `PFTEMP` of `inc/memlayout.h`, the "fixed scratch
virtual address reserved for" the fault resolver. -/
def PFTEMP : Nat := UTEMP + PTSIZE - PGSIZE

/-- Modelled from the spec: error code `E_BAD_ENV` of `inc/error.h`. -/
def E_BAD_ENV : Int := 2

/-- Modelled from the spec: error code `E_INVAL` of `inc/error.h` (the "invalid
argument" error). -/
def E_INVAL : Int := 3

/-- Modelled from the spec: error code `E_NO_MEM` of `inc/error.h` (frame
exhaustion). -/
def E_NO_MEM : Int := 4

/-- Modelled from the spec: error code `E_NO_FREE_ENV` of `inc/error.h` (child
creation fails). -/
def E_NO_FREE_ENV : Int := 5

/-- Modelled from the spec: `NENV` of `inc/env.h`, the size of the process table. -/
def NENV : Nat := 1024

/-- Modelled from the spec: the macro `PGNUM(la)` of `inc/mmu.h`, the virtual page
number of an address (`la >> 12`). -/
def PGNUM (la : Nat) : Nat := la / PGSIZE

/-- Modelled from the spec: the macro `PDX(la)` of `inc/mmu.h`, the page-directory
index of an address (`(la >> 22) & 0x3FF`). -/
def PDX (la : Nat) : Nat := (la / PTSIZE) % 1024

/-- Modelled from the spec: the macro `ROUNDDOWN(a, n)` of `inc/types.h`
("rounded down to its page boundary"). -/
def ROUNDDOWN (a n : Nat) : Nat := a - a % n

/-- Modelled from the spec: the macro `ENVX(envid)` of `inc/env.h`, the process-table
index of an identity. -/
def ENVX (envid : Int) : Nat := envid.toNat % NENV

/-! ## Data model -/

/-- One page-table entry: the physical frame number and the flag bits (the low
twelve bits of the hardware entry). -/
structure Pte where
  frame : Nat
  perm : Nat
deriving DecidableEq, Repr

/-- Modelled from the spec: the run state of a process (`inc/env.h`). -/
inductive EnvStatus where
  | ENV_FREE
  | ENV_DYING
  | ENV_RUNNABLE
  | ENV_RUNNING
  | ENV_NOT_RUNNABLE
deriving DecidableEq, Repr

open EnvStatus

/-- Modelled from the spec: the code addresses a process hands to the kernel or to
`set_pgfault_handler`: the trampoline `_pgfault_upcall` (`lib/pfentry.S`, the
"process-independent trampoline entry point") and the handler `pgfault` of
`lib/fork.c`. -/
inductive CodePtr where
  | _pgfault_upcall
  | pgfault
deriving DecidableEq, Repr

/-- Modelled from the spec: a process ("environment").  `env_pgdir` holds the flag
bits of the page-directory entries (what `uvpd` shows), `env_pgtab` the page-table
entries by virtual page number (what `uvpt` shows).  `_pgfault_handler` and
`thisenv` are the two user-level globals of the process that `lib/fork.c` and
`lib/pgfault.c` use (`none` is the null pointer: nothing registered). -/
structure Env where
  env_status : EnvStatus
  env_pgfault_upcall : Option CodePtr
  env_pgdir : Nat → Nat
  env_pgtab : Nat → Pte
  _pgfault_handler : Option CodePtr
  thisenv : Nat

/-- The kernel primitives of the spec, as recorded in the call log. -/
inductive Syscall where
  | exofork
  | page_alloc (envid : Int) (va perm : Nat)
  | page_map (srcenvid : Int) (srcva : Nat) (dstenvid : Int) (dstva perm : Nat)
  | page_unmap (envid : Int) (va : Nat)
  | env_set_pgfault_upcall (envid : Int) (func : CodePtr)
  | env_set_status (envid : Int) (status : EnvStatus)
deriving DecidableEq, Repr

/-- One entry of the call log: the primitive called and the run state every
process had at the moment of the call. -/
structure Event where
  call : Syscall
  status : Int → Option EnvStatus

/-- Modelled from the spec: the kernel state the primitives act on.  `envs` is the
process table by identity, `curenv` the identity of the running process,
`env_free_list` the free process slots, `page_free_list` the free physical
frames, `mem` the content of the frames (frame, offset ↦ byte).  `trace` is a
ghost log of the primitive calls made so far; no primitive reads it. -/
structure Kernel where
  envs : Int → Option Env
  curenv : Int
  env_free_list : List Nat
  page_free_list : List Nat
  mem : Nat → Nat → Nat
  trace : List Event

/-- Pointwise update of a table. -/
def upd {α β : Type} [DecidableEq α] (f : α → β) (a : α) (b : β) : α → β :=
  fun x => if x = a then b else f x

/-- Modelled from the spec: the fault frame, "a snapshot delivered on fault
containing the faulting virtual address and an error code" (`struct UTrapframe`,
`inc/trap.h`). -/
structure UTrapframe where
  utf_fault_va : Nat
  utf_err : Nat
deriving DecidableEq, Repr

/-- The result of running user code: it returns a value, or the process aborts
in `panic` with a diagnostic. -/
inductive Outcome (α : Type) where
  | ret : α → Kernel → Outcome α
  | abort : String → Kernel → Outcome α

/-- Modelled from the spec: `panic` (`lib/panic.c`), "process aborts with a
diagnostic"; it does not return to its caller. -/
def panic {α : Type} (msg : String) (k : Kernel) : Outcome α := Outcome.abort msg k

/-! ## The read-only tables `uvpd` and `uvpt` -/

/-- The page-table entry of page `pn` in process `e` (an absent process has none). -/
def pte (k : Kernel) (e : Int) (pn : Nat) : Pte :=
  match k.envs e with
  | some env => env.env_pgtab pn
  | none => ⟨0, 0⟩

/-- The flag bits of page-directory entry `i` of process `e`. -/
def pde (k : Kernel) (e : Int) (i : Nat) : Nat :=
  match k.envs e with
  | some env => env.env_pgdir i
  | none => 0

/-- Modelled from the spec: `uvpt[pn]` read by the running process, the "read-only
table mapping virtual page number → (frame, permission bits)".  Every use in
`lib/fork.c` masks the entry with flag constants below `PGSIZE`, so the embedding
exposes the flag bits of the entry. -/
def uvpt (k : Kernel) (pn : Nat) : Nat := (pte k k.curenv pn).perm

/-- Modelled from the spec: `uvpd[i]` read by the running process, the flag bits
of its page-directory entry `i`. -/
def uvpd (k : Kernel) (i : Nat) : Nat := pde k k.curenv i

/-- Page `pn` of process `e` is mapped: the page-directory entry covering it and
its page-table entry are both present. -/
def present (k : Kernel) (e : Int) (pn : Nat) : Prop :=
  pde k e (PDX (pn * PGSIZE)) &&& PTE_P ≠ 0 ∧ (pte k e pn).perm &&& PTE_P ≠ 0

instance (k : Kernel) (e : Int) (pn : Nat) : Decidable (present k e pn) :=
  inferInstanceAs (Decidable (_ ∧ _))

/-! ## Kernel primitives -/

/-- The run state of every process (`none` for an identity that names no
process). -/
def statusOf (k : Kernel) : Int → Option EnvStatus :=
  fun id => (k.envs id).map Env.env_status

/-- Append a call to the ghost log, with the run states at the time of the call. -/
def log (k : Kernel) (c : Syscall) : Kernel :=
  { k with trace := k.trace ++ [⟨c, statusOf k⟩] }

/-- The process an identity names for a primitive: 0 names the calling process. -/
def resolve (k : Kernel) (envid : Int) : Int :=
  if envid = 0 then k.curenv else envid

/-- Modelled from the spec: resolution of a process identity by a primitive; the
identity 0 names the calling process (`envid2env`, `kern/env.c`). -/
def envid2env (k : Kernel) (envid : Int) : Option (Int × Env) :=
  match k.envs (resolve k envid) with
  | some e => some (resolve k envid, e)
  | none => none

/-- Install the entry `p` for the page of `va` in a process; the page-directory
entry covering `va` becomes present (the page table that holds the entry
exists). -/
def Env.insert (e : Env) (va : Nat) (p : Pte) : Env :=
  { e with
    env_pgdir :=
      if e.env_pgdir (PDX va) &&& PTE_P ≠ 0 then e.env_pgdir
      else upd e.env_pgdir (PDX va) (PTE_P ||| PTE_W ||| PTE_U)
    env_pgtab := upd e.env_pgtab (PGNUM va) p }

/-- Modelled from the spec: `create_child() -> child_id | error`, "snapshots
caller's register context into a new suspended process".  The child takes the
first free slot; it has no user mappings, no fault entry point and is not
runnable.  With no free slot the call fails and changes nothing. -/
def sys_exofork (k : Kernel) : Int × Kernel :=
  let k := log k Syscall.exofork
  match k.env_free_list with
  | [] => (-E_NO_FREE_ENV, k)
  | slot :: rest =>
    let id : Int := (slot : Int) + 1
    (id, { k with
      env_free_list := rest
      envs := upd k.envs id (some
        { env_status := ENV_NOT_RUNNABLE
          env_pgfault_upcall := none
          env_pgdir := fun _ => 0
          env_pgtab := fun _ => ⟨0, 0⟩
          _pgfault_handler := none
          thisenv := 0 }) })

/-- Modelled from the spec: `alloc_frame(process_id, virtual_addr, perm_bits) ->
status`, "backs a virtual address with a fresh zero frame in the named process".
It fails when the process does not exist or no frame is free. -/
def sys_page_alloc (k : Kernel) (envid : Int) (va perm : Nat) : Int × Kernel :=
  let k := log k (Syscall.page_alloc envid va perm)
  match envid2env k envid with
  | none => (-E_BAD_ENV, k)
  | some (id, e) =>
    match k.page_free_list with
    | [] => (-E_NO_MEM, k)
    | f :: rest =>
      (0, { k with
        page_free_list := rest
        mem := upd k.mem f (fun _ => 0)
        envs := upd k.envs id (some (e.insert va ⟨f, perm⟩)) })

/-- Modelled from the spec: `map(src_process, src_addr, dst_process, dst_addr,
perm_bits) -> status`, "shares src's frame at dst_addr in dst_process with
perm_bits".  It fails when a process does not exist or the source has no page
mapped at `src_addr`. -/
def sys_page_map (k : Kernel) (srcenvid : Int) (srcva : Nat) (dstenvid : Int)
    (dstva perm : Nat) : Int × Kernel :=
  let k := log k (Syscall.page_map srcenvid srcva dstenvid dstva perm)
  match envid2env k srcenvid, envid2env k dstenvid with
  | some (src, _), some (dst, de) =>
    if present k src (PGNUM srcva) then
      (0, { k with
        envs := upd k.envs dst (some (de.insert dstva ⟨(pte k src (PGNUM srcva)).frame, perm⟩)) })
    else (-E_INVAL, k)
  | _, _ => (-E_BAD_ENV, k)

/-- Modelled from the spec: `unmap(process_id, virtual_addr) -> status`; the entry
of the page is cleared.  It fails when the process does not exist. -/
def sys_page_unmap (k : Kernel) (envid : Int) (va : Nat) : Int × Kernel :=
  let k := log k (Syscall.page_unmap envid va)
  match envid2env k envid with
  | none => (-E_BAD_ENV, k)
  | some (id, e) =>
    (0, { k with
      envs := upd k.envs id (some { e with env_pgtab := upd e.env_pgtab (PGNUM va) ⟨0, 0⟩ }) })

/-- Modelled from the spec: `set_fault_entry_point(process_id, entry_point) ->
status`.  It fails when the process does not exist. -/
def sys_env_set_pgfault_upcall (k : Kernel) (envid : Int) (func : CodePtr) : Int × Kernel :=
  let k := log k (Syscall.env_set_pgfault_upcall envid func)
  match envid2env k envid with
  | none => (-E_BAD_ENV, k)
  | some (id, e) =>
    (0, { k with envs := upd k.envs id (some { e with env_pgfault_upcall := some func }) })

/-- Modelled from the spec: `set_run_state(process_id, state) -> status`.  It fails
when the process does not exist. -/
def sys_env_set_status (k : Kernel) (envid : Int) (status : EnvStatus) : Int × Kernel :=
  let k := log k (Syscall.env_set_status envid status)
  match envid2env k envid with
  | none => (-E_BAD_ENV, k)
  | some (id, e) =>
    (0, { k with envs := upd k.envs id (some { e with env_status := status }) })

/-- Modelled from the spec: `sys_getenvid`, the identity of the calling process. -/
def sys_getenvid (k : Kernel) : Int := k.curenv

/-! ## Library helpers -/

/-- Address translation of the running process for a read: frame and offset of a
mapped address. -/
def translate (k : Kernel) (va : Nat) : Option (Nat × Nat) :=
  if present k k.curenv (PGNUM va) then
    some ((pte k k.curenv (PGNUM va)).frame, va % PGSIZE)
  else none

/-- The byte the running process reads at `va` (0 where nothing is mapped). -/
def read_byte (k : Kernel) (va : Nat) : Nat :=
  match translate k va with
  | some (f, off) => k.mem f off
  | none => 0

/-- Where a store of the running process to `va` lands: frame and offset, when the
page is mapped writable. -/
def store_target (k : Kernel) (va : Nat) : Option (Nat × Nat) :=
  if present k k.curenv (PGNUM va) ∧ (pte k k.curenv (PGNUM va)).perm &&& PTE_W ≠ 0 then
    some ((pte k k.curenv (PGNUM va)).frame, va % PGSIZE)
  else none

/-- Modelled from the spec: `memmove(dst, src, n)` (`lib/string.c`), "copy the full
contents" of `n` bytes from `src` to `dst` in the running process.  The byte at
offset `off` of frame `fr` becomes the byte read at `src + i` for the last
`i < n` whose destination `dst + i` lands there; every other byte is kept.  The
source is read in the state before the copy. -/
def memmove (k : Kernel) (dst src n : Nat) : Kernel :=
  { k with
    mem := fun fr off =>
      match (List.range n).reverse.find? (fun i => store_target k (dst + i) = some (fr, off)) with
      | some i => read_byte k (src + i)
      | none => k.mem fr off }

/-- Modelled from the spec: `set_pgfault_handler` (`lib/pgfault.c`), the
`register(handler)` of the Fault Trampoline: it "records `handler` as the
process's sole active fault handler (last registration wins) and, on first call,
informs the kernel of a process-independent trampoline entry point"; a failing
primitive is fatal. -/
def set_pgfault_handler (k : Kernel) (handler : CodePtr) : Outcome Unit :=
  match k.envs k.curenv with
  | none => panic "set_pgfault_handler: %e" k
  | some e =>
    if e._pgfault_handler = none then
      match sys_env_set_pgfault_upcall k 0 CodePtr._pgfault_upcall with
      | (r, k1) =>
        if r < 0 then panic "set_pgfault_handler: %e" k1
        else
          Outcome.ret () { k1 with
            envs := upd k1.envs k1.curenv
              ((k1.envs k1.curenv).map (fun e1 => { e1 with _pgfault_handler := some handler })) }
    else
      Outcome.ret () { k with
        envs := upd k.envs k.curenv (some { e with _pgfault_handler := some handler }) }

/-! ## `lib/fork.c` -/

/-- The handler `pgfault` of `lib/fork.c`: "if faulting page is copy-on-write, map
in our own private writable copy". -/
def pgfault (k : Kernel) (utf : UTrapframe) : Outcome Unit :=
  let addr := utf.utf_fault_va
  let err := utf.utf_err
  if err &&& FEC_WR = 0 ∨ uvpt k (PGNUM addr) &&& PTE_COW = 0 then
    panic "pgfault: not a write or to a copy-on-write page" k
  else
    let pg_addr := ROUNDDOWN addr PGSIZE
    match sys_page_alloc k 0 PFTEMP (PTE_U ||| PTE_W ||| PTE_P) with
    | (r, k1) =>
      if r < 0 then panic "alloc to PFTEMP failed: %e" k1
      else
        let k2 := memmove k1 PFTEMP pg_addr PGSIZE
        match sys_page_map k2 0 PFTEMP 0 pg_addr (PTE_U ||| PTE_W ||| PTE_P) with
        | (r, k3) =>
          if r < 0 then panic "map PFTEMP to fault addr failed: %e" k3
          else
            match sys_page_unmap k3 0 PFTEMP with
            | (r, k4) =>
              if r < 0 then panic "unmap PFTEMP failed: %e" k4
              else Outcome.ret () k4

/-- The function `duppage` of `lib/fork.c`: map page `pn` of the running process
into `envid` at the same address.  `pn` is an `unsigned`, so `pn * PGSIZE` is
taken modulo `2 ^ 32`. -/
def duppage (k : Kernel) (envid : Int) (pn : Nat) : Outcome Int :=
  let addr := (pn * PGSIZE) % 2 ^ 32
  if uvpt k pn &&& PTE_SHARE ≠ 0 then
    match sys_page_map k 0 addr envid addr (uvpt k pn &&& PTE_SYSCALL) with
    | (r, k1) =>
      if r < 0 then panic "map to child shared failed: %e" k1
      else Outcome.ret 0 k1
  else if uvpt k pn &&& PTE_W ≠ 0 ∨ uvpt k pn &&& PTE_COW ≠ 0 then
    match sys_page_map k 0 addr envid addr (PTE_COW ||| PTE_U ||| PTE_P) with
    | (r, k1) =>
      if r < 0 then panic "map to child failed: %e" k1
      else
        match sys_page_map k1 0 addr 0 addr (PTE_COW ||| PTE_U ||| PTE_P) with
        | (r, k2) =>
          if r < 0 then panic "remap to curenv COW failed: %e" k2
          else Outcome.ret 0 k2
  else
    match sys_page_map k 0 addr envid addr (uvpt k pn &&& PTE_SYSCALL) with
    | (r, k1) =>
      if r < 0 then panic "map to child read-only failed: %e" k1
      else Outcome.ret 0 k1

/-- The loop of `fork`, `for (addr = 0; addr < USTACKTOP; addr += PGSIZE)`, from
the value `addr` of the loop variable on.  `addr` is a `uintptr_t`, so the
increment is taken modulo `2 ^ 32`. -/
def fork_loop (k : Kernel) (child_envid : Int) (addr : Nat) : Outcome Unit :=
  if h : addr < USTACKTOP then
    if uvpd k (PDX addr) &&& PTE_P ≠ 0 ∧ uvpt k (PGNUM addr) &&& PTE_P ≠ 0 then
      match duppage k child_envid (PGNUM addr) with
      | Outcome.abort msg k1 => Outcome.abort msg k1
      | Outcome.ret r k1 =>
        if r < 0 then panic "fork: duppage failed at PGNUM %08x" k1
        else fork_loop k1 child_envid ((addr + PGSIZE) % 2 ^ 32)
    else fork_loop k child_envid ((addr + PGSIZE) % 2 ^ 32)
  else Outcome.ret () k
termination_by USTACKTOP - addr
decreasing_by
  all_goals simp only [USTACKTOP, UTOP, PGSIZE] at h ⊢
  all_goals omega

/-- The function `fork` of `lib/fork.c`: "User-level fork with copy-on-write".
The embedding runs the statements of `fork` one after the other.  A write of the
caller to a page it has just re-mapped copy-on-write (its active stack page) makes
the processor run `pgfault` in between; such an excursion is a run of `pgfault`
on the state reached, and is not interleaved here. -/
def fork (k : Kernel) : Outcome Int :=
  match set_pgfault_handler k CodePtr.pgfault with
  | Outcome.abort msg k0 => Outcome.abort msg k0
  | Outcome.ret _ k0 =>
    match sys_exofork k0 with
    | (child_envid, k1) =>
      if child_envid < 0 then Outcome.ret child_envid k1
      else if child_envid = 0 then
        Outcome.ret 0 { k1 with
          envs := upd k1.envs k1.curenv
            ((k1.envs k1.curenv).map (fun e => { e with thisenv := ENVX (sys_getenvid k1) })) }
      else
        match fork_loop k1 child_envid 0 with
        | Outcome.abort msg k2 => Outcome.abort msg k2
        | Outcome.ret _ k2 =>
          match sys_page_alloc k2 child_envid (UXSTACKTOP - PGSIZE) (PTE_W ||| PTE_U ||| PTE_P) with
          | (r, k3) =>
            if r < 0 then panic "alloc for exception stack failed: %e" k3
            else
              match sys_env_set_pgfault_upcall k3 child_envid CodePtr._pgfault_upcall with
              | (r, k4) =>
                if r < 0 then panic "set pgfault upcall for child failed: %e" k4
                else
                  match sys_env_set_status k4 child_envid ENV_RUNNABLE with
                  | (r, k5) =>
                    if r < 0 then panic "sys_env_set_status: %e" k5
                    else Outcome.ret child_envid k5

/-- The function `sfork` of `lib/fork.c`: `panic("sfork not implemented")` followed
by `return -E_INVAL`; the second statement runs only if the first returns. -/
def sfork (k : Kernel) : Outcome Int :=
  match (panic "sfork not implemented" k : Outcome Unit) with
  | Outcome.abort msg k1 => Outcome.abort msg k1
  | Outcome.ret _ k1 => Outcome.ret (-E_INVAL) k1

/-! ## A concrete state for the examples -/

/-- The page tables of the example parent: a read-only text page (0x800), a
writable data page (0x801), a writable explicit-share page (0x802), an
explicit-share page that also carries the copy-on-write bit (0x803), a
copy-on-write page (0x804), a copy-on-write page at `PFTEMP` (0x7ff), the user
stack (0xeebfd) and the fault-handling stack (0xeebff). -/
def demoPgtab (pn : Nat) : Pte :=
  if pn = 0x800 then ⟨1, PTE_P ||| PTE_U⟩
  else if pn = 0x801 then ⟨2, PTE_P ||| PTE_U ||| PTE_W⟩
  else if pn = 0x802 then ⟨3, PTE_P ||| PTE_U ||| PTE_W ||| PTE_SHARE⟩
  else if pn = 0x803 then ⟨4, PTE_P ||| PTE_U ||| PTE_SHARE ||| PTE_COW⟩
  else if pn = 0x804 then ⟨8, PTE_P ||| PTE_U ||| PTE_COW⟩
  else if pn = 0x7ff then ⟨5, PTE_P ||| PTE_U ||| PTE_COW⟩
  else if pn = 0xeebfd then ⟨6, PTE_P ||| PTE_U ||| PTE_W⟩
  else if pn = 0xeebff then ⟨7, PTE_P ||| PTE_U ||| PTE_W⟩
  else ⟨0, 0⟩

/-- The example parent process. -/
def demoEnv : Env :=
  { env_status := ENV_RUNNING
    env_pgfault_upcall := none
    env_pgdir := fun i => if i = 1 ∨ i = 2 ∨ i = 954 then PTE_P ||| PTE_W ||| PTE_U else 0
    env_pgtab := demoPgtab
    _pgfault_handler := none
    thisenv := 1 }

/-- The example state: process 1 runs, slot 1 (identity 2) and the frames 9 and 10
are free. -/
def demoKernel : Kernel :=
  { envs := fun id => if id = 1 then some demoEnv else none
    curenv := 1
    env_free_list := [1]
    page_free_list := [9, 10]
    mem := fun fr off => if fr = 8 then off % 256 else 0
    trace := [] }

/-- The example state with no free process slot. -/
def demoFull : Kernel := { demoKernel with env_free_list := [] }

/-- The example state with no free process slot, after the parent has registered
its fault handler. -/
def demoFullRegistered : Kernel :=
  match set_pgfault_handler demoFull CodePtr.pgfault with
  | Outcome.ret _ ka => ka
  | Outcome.abort _ ka => ka

/-! ## Observations of a kernel state -/

/-- The fault entry point registered with the kernel for every process. -/
def upcallOf (k : Kernel) : Int → Option (Option CodePtr) :=
  fun id => (k.envs id).map Env.env_pgfault_upcall

/-- The user-level globals of every process: registered handler and
self-reference. -/
def userOf (k : Kernel) : Int → Option (Option CodePtr × Nat) :=
  fun id => (k.envs id).map (fun v => (v._pgfault_handler, v.thisenv))

/-- What installing the entry `p` at `va` in process `dst` does to the page tables,
and what it leaves alone. -/
structure InsertPost (k k1 : Kernel) (dst : Int) (va : Nat) (p : Pte) : Prop where
  curenv : k1.curenv = k.curenv
  env_free_list : k1.env_free_list = k.env_free_list
  statusOf : statusOf k1 = statusOf k
  upcallOf : upcallOf k1 = upcallOf k
  userOf : userOf k1 = userOf k
  pte : ∀ e pn, pte k1 e pn = if e = dst ∧ pn = PGNUM va then p else pte k e pn
  pde : ∀ e i, pde k1 e i =
    if e = dst ∧ i = PDX va ∧ pde k e i &&& PTE_P = 0 then PTE_P ||| PTE_W ||| PTE_U
    else pde k e i

/-- A step that leaves every page table alone. -/
structure SameTables (k k1 : Kernel) : Prop where
  curenv : k1.curenv = k.curenv
  page_free_list : k1.page_free_list = k.page_free_list
  mem : k1.mem = k.mem
  pte : ∀ e pn, pte k1 e pn = pte k e pn
  pde : ∀ e i, pde k1 e i = pde k e i

/-! ## What `duppage` and `fork` establish -/

/-- The flag bits `duppage` gives the target's entry for a source entry with flag
bits `x` (the three branches of `duppage`). -/
def dupperm (x : Nat) : Nat :=
  if x &&& PTE_SHARE ≠ 0 then x &&& PTE_SYSCALL
  else if x &&& PTE_W ≠ 0 ∨ x &&& PTE_COW ≠ 0 then PTE_COW ||| PTE_U ||| PTE_P
  else x &&& PTE_SYSCALL

/-- The source entries `duppage` re-maps in the calling process: not explicit-share,
and writable or copy-on-write. -/
def remapped (x : Nat) : Prop :=
  x &&& PTE_SHARE = 0 ∧ (x &&& PTE_W ≠ 0 ∨ x &&& PTE_COW ≠ 0)

instance (x : Nat) : Decidable (remapped x) :=
  inferInstanceAs (Decidable (_ ∧ _))

/-- The calls `duppage` and the loop of `fork` make: mappings of a page below
`USTACKTOP` of the caller, at the same address, into the target `c` or into the
caller itself, made while the run states are `st`. -/
def dupEvent (c : Int) (st : Int → Option EnvStatus) (ev : Event) : Prop :=
  ev.status = st ∧
  ∃ va d perm, ev.call = Syscall.page_map 0 va d va perm ∧ va < USTACKTOP ∧ (d = c ∨ d = 0)

/-- The two calls of the middle branch of `duppage` for page `q`: the mapping into
the target `c`, then the re-mapping in the caller, both with the copy-on-write
permissions, made while the run states are `st`. -/
def cowEvents (c : Int) (st : Int → Option EnvStatus) (q : Nat) : List Event :=
  [⟨Syscall.page_map 0 (q * PGSIZE) c (q * PGSIZE) (PTE_COW ||| PTE_U ||| PTE_P), st⟩,
   ⟨Syscall.page_map 0 (q * PGSIZE) 0 (q * PGSIZE) (PTE_COW ||| PTE_U ||| PTE_P), st⟩]

/-- The number of pages below `USTACKTOP`. -/
def NPAGES : Nat := USTACKTOP / PGSIZE

/-- The state of the loop of `fork` when the pages below number `n` have been
visited, in terms of the state `k0` the loop started in. -/
structure LoopInv (k0 : Kernel) (c : Int) (n : Nat) (k : Kernel) : Prop where
  curenv : k.curenv = k0.curenv
  env_free_list : k.env_free_list = k0.env_free_list
  page_free_list : k.page_free_list = k0.page_free_list
  mem : k.mem = k0.mem
  statusOf : statusOf k = statusOf k0
  upcallOf : upcallOf k = upcallOf k0
  userOf : userOf k = userOf k0
  pte : ∀ e q, pte k e q =
    if q < n ∧ present k0 k0.curenv q ∧ e = c then
      ⟨(pte k0 k0.curenv q).frame, dupperm (pte k0 k0.curenv q).perm⟩
    else if q < n ∧ present k0 k0.curenv q ∧ e = k0.curenv ∧
        remapped (pte k0 k0.curenv q).perm then
      ⟨(pte k0 k0.curenv q).frame, PTE_COW ||| PTE_U ||| PTE_P⟩
    else pte k0 e q
  pde_other : ∀ e i, e ≠ c → pde k e i = pde k0 e i
  pde_child : ∀ i, pde k c i = pde k0 c i ∨
    (pde k0 c i &&& PTE_P = 0 ∧ pde k c i = PTE_P ||| PTE_W ||| PTE_U ∧
      ∃ q, q < n ∧ present k0 k0.curenv q ∧ PDX (q * PGSIZE) = i)
  pde_child_set : ∀ q, q < n → present k0 k0.curenv q →
    pde k c (PDX (q * PGSIZE)) &&& PTE_P ≠ 0
  trace : ∃ evs, k.trace = k0.trace ++ evs ∧ ∀ ev ∈ evs, dupEvent c (Jos.statusOf k0) ev
  trace_cow : ∀ q, q < n → present k0 k0.curenv q → remapped (Jos.pte k0 k0.curenv q).perm →
    ∃ l1 l2, k.trace = k0.trace ++ l1 ++ cowEvents c (Jos.statusOf k0) q ++ l2

/-- The page of the fault-handling stack, `PGNUM(UXSTACKTOP - PGSIZE)`. -/
def UXPAGE : Nat := PGNUM (UXSTACKTOP - PGSIZE)

/-- The run states while `fork` sets the child `c` up: the child exists and is not
runnable, the other processes are as in `k`. -/
def setupStatus (k : Kernel) (c : Int) : Int → Option EnvStatus :=
  fun e => if e = c then some ENV_NOT_RUNNABLE else statusOf k e

/-- The state `k5` that `fork` leaves on the parent path, in terms of the state `k`
it was called in, the child `c` and the frame `f` taken for the child's
fault-handling stack. -/
structure ForkPost (k : Kernel) (c : Int) (f : Nat) (frest : List Nat) (k5 : Kernel) :
    Prop where
  curenv : k5.curenv = k.curenv
  page_free_list : k5.page_free_list = frest
  mem : k5.mem = upd k.mem f (fun _ => 0)
  statusOf : ∀ e, statusOf k5 e = if e = c then some ENV_RUNNABLE else statusOf k e
  upcall_child : upcallOf k5 c = some (some CodePtr._pgfault_upcall)
  rest_other : ∀ e, e ≠ c → e ≠ k.curenv → upcallOf k5 e = upcallOf k e ∧ userOf k5 e = userOf k e
  pte : ∀ e q, pte k5 e q =
    if e = c then
      if q < NPAGES ∧ present k k.curenv q then
        ⟨(pte k k.curenv q).frame, dupperm (pte k k.curenv q).perm⟩
      else if q = UXPAGE then ⟨f, PTE_W ||| PTE_U ||| PTE_P⟩
      else ⟨0, 0⟩
    else if q < NPAGES ∧ present k k.curenv q ∧ e = k.curenv ∧
        remapped (pte k k.curenv q).perm then
      ⟨(pte k k.curenv q).frame, PTE_COW ||| PTE_U ||| PTE_P⟩
    else pte k e q
  pde_other : ∀ e i, e ≠ c → pde k5 e i = pde k e i
  pde_child_set : ∀ q, (q < NPAGES ∧ present k k.curenv q) ∨ q = UXPAGE →
    pde k5 c (PDX (q * PGSIZE)) &&& PTE_P ≠ 0
  trace : ∃ pre evs, k5.trace = k.trace ++ pre ++ [⟨Syscall.exofork, Jos.statusOf k⟩] ++ evs ++
      [⟨Syscall.page_alloc c (UXSTACKTOP - PGSIZE) (PTE_W ||| PTE_U ||| PTE_P), setupStatus k c⟩,
       ⟨Syscall.env_set_pgfault_upcall c CodePtr._pgfault_upcall, setupStatus k c⟩,
       ⟨Syscall.env_set_status c ENV_RUNNABLE, setupStatus k c⟩] ∧
    (pre = [] ∨ pre = [⟨Syscall.env_set_pgfault_upcall 0 CodePtr._pgfault_upcall,
      Jos.statusOf k⟩]) ∧
    ∀ ev ∈ evs, dupEvent c (setupStatus k c) ev
  trace_cow : ∀ q, q < NPAGES → present k k.curenv q → remapped (Jos.pte k k.curenv q).perm →
    ∃ l1 l2, k5.trace = k.trace ++ l1 ++ cowEvents c (setupStatus k c) q ++ l2

/-! ## The kernel primitives, observed -/

theorem statusOf_ne_none {k : Kernel} {e : Int} (h : statusOf k e ≠ none) :
    ∃ v, k.envs e = some v := by
  unfold statusOf at h
  cases hv : k.envs e with
  | none => simp [hv] at h
  | some v => exact ⟨v, rfl⟩

theorem statusOf_log (k : Kernel) (c : Syscall) : statusOf (log k c) = statusOf k := rfl

theorem insertPost_of (k : Kernel) (dst : Int) (de : Env) (va : Nat) (p : Pte)
    (hd : k.envs dst = some de) (k1 : Kernel)
    (h1 : k1.curenv = k.curenv) (h2 : k1.env_free_list = k.env_free_list)
    (h3 : k1.envs = upd k.envs dst (some (de.insert va p))) :
    InsertPost k k1 dst va p := by
  refine ⟨h1, h2, ?_, ?_, ?_, ?_, ?_⟩
  · funext e
    simp only [Jos.statusOf, h3, upd]
    by_cases he : e = dst
    · subst he; simp [hd, Env.insert]
    · simp [he]
  · funext e
    simp only [Jos.upcallOf, h3, upd]
    by_cases he : e = dst
    · subst he; simp [hd, Env.insert]
    · simp [he]
  · funext e
    simp only [Jos.userOf, h3, upd]
    by_cases he : e = dst
    · subst he; simp [hd, Env.insert]
    · simp [he]
  · intro e pn
    simp only [Jos.pte, h3, upd]
    by_cases he : e = dst
    · subst he
      by_cases hpn : pn = PGNUM va
      · simp [hpn, Env.insert, upd]
      · simp [hpn, Env.insert, upd, hd]
    · simp [he]
  · intro e i
    simp only [Jos.pde, h3, upd]
    by_cases he : e = dst
    · subst he
      simp only [if_true, hd, Env.insert, true_and]
      by_cases hP : de.env_pgdir (PDX va) &&& PTE_P = 0
      · by_cases hi : i = PDX va
        · subst hi; simp [hP, upd]
        · simp [hP, hi, upd]
      · by_cases hi : i = PDX va
        · subst hi; simp [hP]
        · simp [hP, hi]
    · simp [he]

theorem sys_page_map_spec (k : Kernel) (s : Int) (sva : Nat) (d : Int) (dva perm : Nat)
    (hs : statusOf k (resolve k s) ≠ none) (hd : statusOf k (resolve k d) ≠ none)
    (hp : present k (resolve k s) (PGNUM sva)) :
    ∃ k1, sys_page_map k s sva d dva perm = (0, k1) ∧
      InsertPost k k1 (resolve k d) dva ⟨(pte k (resolve k s) (PGNUM sva)).frame, perm⟩ ∧
      k1.page_free_list = k.page_free_list ∧ k1.mem = k.mem ∧
      k1.trace = k.trace ++ [⟨Syscall.page_map s sva d dva perm, statusOf k⟩] := by
  obtain ⟨se, hse⟩ := statusOf_ne_none hs
  obtain ⟨de, hde⟩ := statusOf_ne_none hd
  have hs1 : (log k (Syscall.page_map s sva d dva perm)).envs
      (resolve (log k (Syscall.page_map s sva d dva perm)) s) = some se := hse
  have hd1 : (log k (Syscall.page_map s sva d dva perm)).envs
      (resolve (log k (Syscall.page_map s sva d dva perm)) d) = some de := hde
  have hp1 : present (log k (Syscall.page_map s sva d dva perm))
      (resolve (log k (Syscall.page_map s sva d dva perm)) s) (PGNUM sva) := hp
  refine ⟨{ log k (Syscall.page_map s sva d dva perm) with
      envs := upd k.envs (resolve k d)
        (some (de.insert dva ⟨(pte k (resolve k s) (PGNUM sva)).frame, perm⟩)) },
    ?_, ?_, rfl, rfl, rfl⟩
  · simp only [sys_page_map, envid2env, hs1, hd1, hp1, if_true]
    rfl
  · exact insertPost_of k _ de dva _ hde _ rfl rfl rfl

theorem sys_page_alloc_spec (k : Kernel) (envid : Int) (va perm : Nat) (f : Nat)
    (rest : List Nat) (hd : statusOf k (resolve k envid) ≠ none)
    (hf : k.page_free_list = f :: rest) :
    ∃ k1, sys_page_alloc k envid va perm = (0, k1) ∧
      InsertPost k k1 (resolve k envid) va ⟨f, perm⟩ ∧
      k1.page_free_list = rest ∧ k1.mem = upd k.mem f (fun _ => 0) ∧
      k1.trace = k.trace ++ [⟨Syscall.page_alloc envid va perm, statusOf k⟩] := by
  obtain ⟨de, hde⟩ := statusOf_ne_none hd
  have hd1 : (log k (Syscall.page_alloc envid va perm)).envs
      (resolve (log k (Syscall.page_alloc envid va perm)) envid) = some de := hde
  have hf1 : (log k (Syscall.page_alloc envid va perm)).page_free_list = f :: rest := hf
  refine ⟨{ log k (Syscall.page_alloc envid va perm) with
      page_free_list := rest
      mem := upd k.mem f (fun _ => 0)
      envs := upd k.envs (resolve k envid) (some (de.insert va ⟨f, perm⟩)) },
    ?_, ?_, rfl, rfl, rfl⟩
  · simp only [sys_page_alloc, envid2env, hd1, hf1]
    rfl
  · exact insertPost_of k _ de va _ hde _ rfl rfl rfl

theorem sys_page_unmap_spec (k : Kernel) (envid : Int) (va : Nat)
    (hd : statusOf k (resolve k envid) ≠ none) :
    ∃ k1, sys_page_unmap k envid va = (0, k1) ∧
      k1.curenv = k.curenv ∧ k1.env_free_list = k.env_free_list ∧
      k1.page_free_list = k.page_free_list ∧ k1.mem = k.mem ∧
      statusOf k1 = statusOf k ∧ upcallOf k1 = upcallOf k ∧ userOf k1 = userOf k ∧
      (∀ e pn, pte k1 e pn =
        if e = resolve k envid ∧ pn = PGNUM va then ⟨0, 0⟩ else pte k e pn) ∧
      (∀ e i, pde k1 e i = pde k e i) ∧
      k1.trace = k.trace ++ [⟨Syscall.page_unmap envid va, statusOf k⟩] := by
  obtain ⟨de, hde⟩ := statusOf_ne_none hd
  have hd1 : (log k (Syscall.page_unmap envid va)).envs
      (resolve (log k (Syscall.page_unmap envid va)) envid) = some de := hde
  refine ⟨{ log k (Syscall.page_unmap envid va) with
      envs := upd k.envs (resolve k envid)
        (some { de with env_pgtab := upd de.env_pgtab (PGNUM va) ⟨0, 0⟩ }) },
    ?_, rfl, rfl, rfl, rfl, ?_, ?_, ?_, ?_, ?_, rfl⟩
  · simp only [sys_page_unmap, envid2env, hd1]
    rfl
  · funext e
    simp only [statusOf, upd]
    by_cases he : e = resolve k envid
    · subst he; simp [hde]
    · simp [he]
  · funext e
    simp only [upcallOf, upd]
    by_cases he : e = resolve k envid
    · subst he; simp [hde]
    · simp [he]
  · funext e
    simp only [userOf, upd]
    by_cases he : e = resolve k envid
    · subst he; simp [hde]
    · simp [he]
  · intro e pn
    simp only [pte, upd]
    by_cases he : e = resolve k envid
    · subst he
      by_cases hpn : pn = PGNUM va
      · simp [hpn, upd]
      · simp [hpn, hde, upd]
    · simp [he]
  · intro e i
    simp only [pde, upd]
    by_cases he : e = resolve k envid
    · subst he; simp [hde]
    · simp [he]

theorem sys_env_set_pgfault_upcall_spec (k : Kernel) (envid : Int) (func : CodePtr)
    (hd : statusOf k (resolve k envid) ≠ none) :
    ∃ k1, sys_env_set_pgfault_upcall k envid func = (0, k1) ∧
      SameTables k k1 ∧ k1.env_free_list = k.env_free_list ∧
      statusOf k1 = statusOf k ∧ userOf k1 = userOf k ∧
      (∀ e, upcallOf k1 e = if e = resolve k envid then some (some func) else upcallOf k e) ∧
      k1.trace = k.trace ++ [⟨Syscall.env_set_pgfault_upcall envid func, statusOf k⟩] := by
  obtain ⟨de, hde⟩ := statusOf_ne_none hd
  have hd1 : (log k (Syscall.env_set_pgfault_upcall envid func)).envs
      (resolve (log k (Syscall.env_set_pgfault_upcall envid func)) envid) = some de := hde
  refine ⟨{ log k (Syscall.env_set_pgfault_upcall envid func) with
      envs := upd k.envs (resolve k envid) (some { de with env_pgfault_upcall := some func }) },
    ?_, ⟨rfl, rfl, rfl, ?_, ?_⟩, rfl, ?_, ?_, ?_, rfl⟩
  · simp only [sys_env_set_pgfault_upcall, envid2env, hd1]
    rfl
  · intro e pn
    simp only [pte, upd]
    by_cases he : e = resolve k envid
    · subst he; simp [hde]
    · simp [he]
  · intro e i
    simp only [pde, upd]
    by_cases he : e = resolve k envid
    · subst he; simp [hde]
    · simp [he]
  · funext e
    simp only [statusOf, upd]
    by_cases he : e = resolve k envid
    · subst he; simp [hde]
    · simp [he]
  · funext e
    simp only [userOf, upd]
    by_cases he : e = resolve k envid
    · subst he; simp [hde]
    · simp [he]
  · intro e
    simp only [upcallOf, upd]
    by_cases he : e = resolve k envid
    · subst he; simp
    · simp [he]

theorem sys_env_set_status_spec (k : Kernel) (envid : Int) (status : EnvStatus)
    (hd : statusOf k (resolve k envid) ≠ none) :
    ∃ k1, sys_env_set_status k envid status = (0, k1) ∧
      SameTables k k1 ∧ k1.env_free_list = k.env_free_list ∧
      upcallOf k1 = upcallOf k ∧ userOf k1 = userOf k ∧
      (∀ e, statusOf k1 e = if e = resolve k envid then some status else statusOf k e) ∧
      k1.trace = k.trace ++ [⟨Syscall.env_set_status envid status, statusOf k⟩] := by
  obtain ⟨de, hde⟩ := statusOf_ne_none hd
  have hd1 : (log k (Syscall.env_set_status envid status)).envs
      (resolve (log k (Syscall.env_set_status envid status)) envid) = some de := hde
  refine ⟨{ log k (Syscall.env_set_status envid status) with
      envs := upd k.envs (resolve k envid) (some { de with env_status := status }) },
    ?_, ⟨rfl, rfl, rfl, ?_, ?_⟩, rfl, ?_, ?_, ?_, rfl⟩
  · simp only [sys_env_set_status, envid2env, hd1]
    rfl
  · intro e pn
    simp only [pte, upd]
    by_cases he : e = resolve k envid
    · subst he; simp [hde]
    · simp [he]
  · intro e i
    simp only [pde, upd]
    by_cases he : e = resolve k envid
    · subst he; simp [hde]
    · simp [he]
  · funext e
    simp only [upcallOf, upd]
    by_cases he : e = resolve k envid
    · subst he; simp [hde]
    · simp [he]
  · funext e
    simp only [userOf, upd]
    by_cases he : e = resolve k envid
    · subst he; simp [hde]
    · simp [he]
  · intro e
    simp only [statusOf, upd]
    by_cases he : e = resolve k envid
    · subst he; simp
    · simp [he]

theorem sys_exofork_spec (k : Kernel) (slot : Nat) (rest : List Nat)
    (hf : k.env_free_list = slot :: rest) :
    ∃ k1, sys_exofork k = ((slot : Int) + 1, k1) ∧
      k1.curenv = k.curenv ∧ k1.env_free_list = rest ∧
      k1.page_free_list = k.page_free_list ∧ k1.mem = k.mem ∧
      (∀ e, statusOf k1 e =
        if e = (slot : Int) + 1 then some ENV_NOT_RUNNABLE else statusOf k e) ∧
      (∀ e, upcallOf k1 e = if e = (slot : Int) + 1 then some none else upcallOf k e) ∧
      (∀ e, userOf k1 e = if e = (slot : Int) + 1 then some (none, 0) else userOf k e) ∧
      (∀ e pn, pte k1 e pn = if e = (slot : Int) + 1 then ⟨0, 0⟩ else pte k e pn) ∧
      (∀ e i, pde k1 e i = if e = (slot : Int) + 1 then 0 else pde k e i) ∧
      k1.trace = k.trace ++ [⟨Syscall.exofork, statusOf k⟩] := by
  have hf1 : (log k Syscall.exofork).env_free_list = slot :: rest := hf
  refine ⟨{ log k Syscall.exofork with
      env_free_list := rest
      envs := upd k.envs ((slot : Int) + 1) (some
        { env_status := ENV_NOT_RUNNABLE
          env_pgfault_upcall := none
          env_pgdir := fun _ => 0
          env_pgtab := fun _ => ⟨0, 0⟩
          _pgfault_handler := none
          thisenv := 0 }) },
    ?_, rfl, rfl, rfl, rfl, ?_, ?_, ?_, ?_, ?_, rfl⟩
  · simp only [sys_exofork, hf1]
    rfl
  · intro e
    simp only [statusOf, upd]
    by_cases he : e = (slot : Int) + 1
    · simp [he]
    · simp [he]
  · intro e
    simp only [upcallOf, upd]
    by_cases he : e = (slot : Int) + 1
    · simp [he]
    · simp [he]
  · intro e
    simp only [userOf, upd]
    by_cases he : e = (slot : Int) + 1
    · simp [he]
    · simp [he]
  · intro e pn
    simp only [pte, upd]
    by_cases he : e = (slot : Int) + 1
    · simp [he]
    · simp [he]
  · intro e i
    simp only [pde, upd]
    by_cases he : e = (slot : Int) + 1
    · simp [he]
    · simp [he]

theorem sys_exofork_fail (k : Kernel) (hf : k.env_free_list = []) :
    sys_exofork k = (-E_NO_FREE_ENV, log k Syscall.exofork) := by
  have hf1 : (log k Syscall.exofork).env_free_list = [] := hf
  simp only [sys_exofork, hf1]

/-! ## `duppage` -/

theorem resolve_zero (k : Kernel) : resolve k 0 = k.curenv := by simp [resolve]

theorem resolve_ne_zero (k : Kernel) {c : Int} (hc : c ≠ 0) : resolve k c = c := by
  simp [resolve, hc]

theorem duppage_spec (k : Kernel) (c : Int) (pn : Nat) (hc0 : c ≠ 0) (hcp : c ≠ k.curenv)
    (hp : statusOf k k.curenv ≠ none) (hc : statusOf k c ≠ none)
    (hpn : pn * PGSIZE < USTACKTOP) (hpres : present k k.curenv pn) :
    ∃ k1, duppage k c pn = Outcome.ret 0 k1 ∧
      k1.curenv = k.curenv ∧ k1.env_free_list = k.env_free_list ∧
      k1.page_free_list = k.page_free_list ∧ k1.mem = k.mem ∧
      statusOf k1 = statusOf k ∧ upcallOf k1 = upcallOf k ∧ userOf k1 = userOf k ∧
      (∀ e q, pte k1 e q =
        if q = pn ∧ e = c then ⟨(pte k k.curenv pn).frame, dupperm (pte k k.curenv pn).perm⟩
        else if q = pn ∧ e = k.curenv ∧ remapped (pte k k.curenv pn).perm then
          ⟨(pte k k.curenv pn).frame, PTE_COW ||| PTE_U ||| PTE_P⟩
        else pte k e q) ∧
      (∀ e i, pde k1 e i =
        if e = c ∧ i = PDX (pn * PGSIZE) ∧ pde k e i &&& PTE_P = 0 then
          PTE_P ||| PTE_W ||| PTE_U
        else pde k e i) ∧
      ∃ evs, k1.trace = k.trace ++ evs ∧ ∀ ev ∈ evs, dupEvent c (statusOf k) ev := by
  have haddr : (pn * PGSIZE) % 2 ^ 32 = pn * PGSIZE := by
    apply Nat.mod_eq_of_lt
    simp only [USTACKTOP, UTOP, PGSIZE] at hpn ⊢
    omega
  have hpg : PGNUM (pn * PGSIZE) = pn := by
    simp [PGNUM, PGSIZE]
  have hs0 : statusOf k (resolve k 0) ≠ none := by rw [resolve_zero]; exact hp
  have hsc : statusOf k (resolve k c) ≠ none := by rw [resolve_ne_zero k hc0]; exact hc
  have hpr0 : present k (resolve k 0) (PGNUM (pn * PGSIZE)) := by
    rw [resolve_zero, hpg]; exact hpres
  obtain ⟨hpde, hpte⟩ := hpres
  unfold duppage
  simp only [haddr, uvpt]
  by_cases hshare : (pte k k.curenv pn).perm &&& PTE_SHARE ≠ 0
  · -- explicit-share
    obtain ⟨k1, hk1, hI, hfl, hmem, htr⟩ :=
      sys_page_map_spec k 0 (pn * PGSIZE) c (pn * PGSIZE)
        ((pte k k.curenv pn).perm &&& PTE_SYSCALL) hs0 hsc hpr0
    rw [resolve_zero, resolve_ne_zero k hc0, hpg] at hI
    refine ⟨k1, ?_, hI.curenv, hI.env_free_list, hfl, hmem, hI.statusOf, hI.upcallOf,
      hI.userOf, ?_, ?_, ⟨_, htr, ?_⟩⟩
    · simp [hshare, hk1]
    · intro e q
      rw [hI.pte, hpg]
      by_cases h1 : q = pn ∧ e = c
      · have h2 : e = c ∧ q = pn := ⟨h1.2, h1.1⟩
        simp [h1, dupperm, hshare]
      · have h2 : ¬ (e = c ∧ q = pn) := fun h => h1 ⟨h.2, h.1⟩
        have h3 : ¬ remapped (pte k k.curenv pn).perm := fun h => hshare h.1
        simp [h1, h2, h3]
    · intro e i
      rw [hI.pde]
    · intro ev hev
      simp only [List.mem_singleton] at hev
      subst hev
      exact ⟨rfl, _, _, _, rfl, hpn, Or.inl rfl⟩
  · by_cases hw : (pte k k.curenv pn).perm &&& PTE_W ≠ 0 ∨ (pte k k.curenv pn).perm &&& PTE_COW ≠ 0
    · -- writable or copy-on-write
      obtain ⟨k1, hk1, hI, hfl, hmem, htr⟩ :=
        sys_page_map_spec k 0 (pn * PGSIZE) c (pn * PGSIZE)
          (PTE_COW ||| PTE_U ||| PTE_P) hs0 hsc hpr0
      rw [resolve_zero, resolve_ne_zero k hc0, hpg] at hI
      have hs0b : statusOf k1 (resolve k1 0) ≠ none := by
        rw [resolve_zero, hI.curenv, hI.statusOf]; exact hp
      have hpte1 : pte k1 k.curenv pn = pte k k.curenv pn := by
        rw [hI.pte]; simp [Ne.symm hcp]
      have hpde1 : pde k1 k.curenv (PDX (pn * PGSIZE)) = pde k k.curenv (PDX (pn * PGSIZE)) := by
        rw [hI.pde]; simp [Ne.symm hcp]
      have hpr1 : present k1 (resolve k1 0) (PGNUM (pn * PGSIZE)) := by
        rw [resolve_zero, hI.curenv, hpg]
        exact ⟨by rw [hpde1]; exact hpde, by rw [hpte1]; exact hpte⟩
      obtain ⟨k2, hk2, hJ, hfl2, hmem2, htr2⟩ :=
        sys_page_map_spec k1 0 (pn * PGSIZE) 0 (pn * PGSIZE)
          (PTE_COW ||| PTE_U ||| PTE_P) hs0b hs0b hpr1
      rw [resolve_zero, hI.curenv, hpg, hpte1] at hJ
      refine ⟨k2, ?_, ?_, ?_, ?_, ?_, ?_, ?_, ?_, ?_, ?_,
        ⟨[⟨Syscall.page_map 0 (pn * PGSIZE) c (pn * PGSIZE) (PTE_COW ||| PTE_U ||| PTE_P),
            statusOf k⟩,
          ⟨Syscall.page_map 0 (pn * PGSIZE) 0 (pn * PGSIZE) (PTE_COW ||| PTE_U ||| PTE_P),
            statusOf k1⟩], ?_, ?_⟩⟩
      · simp [hshare, hw, hk1, hk2]
      · rw [hJ.curenv, hI.curenv]
      · rw [hJ.env_free_list, hI.env_free_list]
      · rw [hfl2, hfl]
      · rw [hmem2, hmem]
      · rw [hJ.statusOf, hI.statusOf]
      · rw [hJ.upcallOf, hI.upcallOf]
      · rw [hJ.userOf, hI.userOf]
      · intro e q
        rw [hJ.pte, hI.pte, hpg]
        have hrem : remapped (pte k k.curenv pn).perm := ⟨not_not.mp hshare, hw⟩
        have hdup : dupperm (pte k k.curenv pn).perm = PTE_COW ||| PTE_U ||| PTE_P := by
          simp only [dupperm, hshare, hw, if_true, if_false]
        by_cases hq : q = pn
        · by_cases he : e = k.curenv
          · have hec : e ≠ c := fun h => hcp (h ▸ he)
            simp [hq, he, hrem, Ne.symm hcp]
          · by_cases hec : e = c
            · simp [hq, hec, hcp, hdup]
            · simp [hq, he, hec]
        · simp [hq]
      · intro e i
        rw [hJ.pde, hI.pde]
        by_cases he : e = k.curenv
        · have hec : e ≠ c := fun h => hcp (h ▸ he)
          by_cases hi : i = PDX (pn * PGSIZE)
          · subst hi; subst he
            simp [hec, hpde]
          · simp [hi]
        · simp [he]
      · rw [htr2, htr, List.append_assoc]
        rfl
      · intro ev hev
        simp only [List.mem_cons, List.mem_singleton, List.not_mem_nil, or_false] at hev
        rcases hev with hev | hev
        · subst hev
          exact ⟨rfl, _, _, _, rfl, hpn, Or.inl rfl⟩
        · subst hev
          exact ⟨hI.statusOf, _, _, _, rfl, hpn, Or.inr rfl⟩
    · -- read-only
      obtain ⟨k1, hk1, hI, hfl, hmem, htr⟩ :=
        sys_page_map_spec k 0 (pn * PGSIZE) c (pn * PGSIZE)
          ((pte k k.curenv pn).perm &&& PTE_SYSCALL) hs0 hsc hpr0
      rw [resolve_zero, resolve_ne_zero k hc0, hpg] at hI
      refine ⟨k1, ?_, hI.curenv, hI.env_free_list, hfl, hmem, hI.statusOf, hI.upcallOf,
        hI.userOf, ?_, ?_, ⟨_, htr, ?_⟩⟩
      · simp [hshare, hw, hk1]
      · intro e q
        rw [hI.pte, hpg]
        by_cases h1 : q = pn ∧ e = c
        · have h2 : e = c ∧ q = pn := ⟨h1.2, h1.1⟩
          simp [h1, dupperm, hshare, hw]
        · have h2 : ¬ (e = c ∧ q = pn) := fun h => h1 ⟨h.2, h.1⟩
          have h3 : ¬ remapped (pte k k.curenv pn).perm := fun h => hw h.2
          simp [h1, h2, h3]
      · intro e i
        rw [hI.pde]
      · intro ev hev
        simp only [List.mem_singleton] at hev
        subst hev
        exact ⟨rfl, _, _, _, rfl, hpn, Or.inl rfl⟩

/-- The calls `duppage` logs for a page it re-maps in the caller. -/
theorem duppage_cow_trace (k : Kernel) (c : Int) (pn : Nat) (hc0 : c ≠ 0)
    (hcp : c ≠ k.curenv) (hp : statusOf k k.curenv ≠ none) (hc : statusOf k c ≠ none)
    (hpn : pn * PGSIZE < USTACKTOP) (hpres : present k k.curenv pn)
    (hrem : remapped (pte k k.curenv pn).perm) (k2 : Kernel)
    (hk2 : duppage k c pn = Outcome.ret 0 k2) :
    k2.trace = k.trace ++ cowEvents c (statusOf k) pn := by
  have haddr : (pn * PGSIZE) % 2 ^ 32 = pn * PGSIZE := by
    apply Nat.mod_eq_of_lt
    simp only [USTACKTOP, UTOP, PGSIZE] at hpn ⊢
    omega
  have hpg : PGNUM (pn * PGSIZE) = pn := by
    simp [PGNUM, PGSIZE]
  have hs0 : statusOf k (resolve k 0) ≠ none := by rw [resolve_zero]; exact hp
  have hsc : statusOf k (resolve k c) ≠ none := by rw [resolve_ne_zero k hc0]; exact hc
  have hpr0 : present k (resolve k 0) (PGNUM (pn * PGSIZE)) := by
    rw [resolve_zero, hpg]; exact hpres
  obtain ⟨hpde, hpte⟩ := hpres
  obtain ⟨hns, hw⟩ := hrem
  have hshare : ¬ (pte k k.curenv pn).perm &&& PTE_SHARE ≠ 0 := not_not.mpr hns
  obtain ⟨k1, hk1, hI, -, -, htr⟩ :=
    sys_page_map_spec k 0 (pn * PGSIZE) c (pn * PGSIZE)
      (PTE_COW ||| PTE_U ||| PTE_P) hs0 hsc hpr0
  rw [resolve_zero, resolve_ne_zero k hc0, hpg] at hI
  have hs0b : statusOf k1 (resolve k1 0) ≠ none := by
    rw [resolve_zero, hI.curenv, hI.statusOf]; exact hp
  have hpte1 : pte k1 k.curenv pn = pte k k.curenv pn := by
    rw [hI.pte]; simp [Ne.symm hcp]
  have hpde1 : pde k1 k.curenv (PDX (pn * PGSIZE)) = pde k k.curenv (PDX (pn * PGSIZE)) := by
    rw [hI.pde]; simp [Ne.symm hcp]
  have hpr1 : present k1 (resolve k1 0) (PGNUM (pn * PGSIZE)) := by
    rw [resolve_zero, hI.curenv, hpg]
    exact ⟨by rw [hpde1]; exact hpde, by rw [hpte1]; exact hpte⟩
  obtain ⟨k2a, hk2a, -, -, -, htr2⟩ :=
    sys_page_map_spec k1 0 (pn * PGSIZE) 0 (pn * PGSIZE)
      (PTE_COW ||| PTE_U ||| PTE_P) hs0b hs0b hpr1
  have hrun : duppage k c pn = Outcome.ret 0 k2a := by
    unfold duppage
    simp only [haddr, uvpt]
    simp [hshare, hw, hk1, hk2a]
  rw [hrun] at hk2
  simp only [Outcome.ret.injEq, true_and] at hk2
  subst hk2
  rw [htr2, htr, hI.statusOf, List.append_assoc]
  rfl

/-! ## The loop of `fork` -/

theorem loopInv_zero (k0 : Kernel) (c : Int) : LoopInv k0 c 0 k0 := by
  refine ⟨rfl, rfl, rfl, rfl, rfl, rfl, rfl, ?_, ?_, ?_, ?_, ⟨[], by simp, by simp⟩, ?_⟩
  · intro e q; simp
  · intro e i _; rfl
  · intro i; exact Or.inl rfl
  · intro q hq; exact absurd hq (Nat.not_lt_zero q)
  · intro q hq; exact absurd hq (Nat.not_lt_zero q)

theorem pdx_P_ne_zero : (PTE_P ||| PTE_W ||| PTE_U) &&& PTE_P ≠ 0 := by decide

theorem loopInv_step (k0 : Kernel) (c : Int) (n : Nat) (k : Kernel) (hc0 : c ≠ 0)
    (hcp : c ≠ k0.curenv) (hp : statusOf k0 k0.curenv ≠ none) (hc : statusOf k0 c ≠ none)
    (hn : n < NPAGES) (hI : LoopInv k0 c n k) :
    (¬ present k0 k0.curenv n ∧
      ¬ (uvpd k (PDX (n * PGSIZE)) &&& PTE_P ≠ 0 ∧ uvpt k (PGNUM (n * PGSIZE)) &&& PTE_P ≠ 0) ∧
      LoopInv k0 c (n + 1) k) ∨
    (present k0 k0.curenv n ∧
      (uvpd k (PDX (n * PGSIZE)) &&& PTE_P ≠ 0 ∧ uvpt k (PGNUM (n * PGSIZE)) &&& PTE_P ≠ 0) ∧
      ∃ k1, duppage k c (PGNUM (n * PGSIZE)) = Outcome.ret 0 k1 ∧ LoopInv k0 c (n + 1) k1) := by
  have hpg : PGNUM (n * PGSIZE) = n := by simp [PGNUM, PGSIZE]
  have hpn : n * PGSIZE < USTACKTOP := by
    simp only [NPAGES, USTACKTOP, UTOP, PGSIZE] at hn ⊢
    omega
  have hpte_n : pte k k0.curenv n = pte k0 k0.curenv n := by
    rw [hI.pte]; simp
  have hpde_n : pde k k0.curenv (PDX (n * PGSIZE)) = pde k0 k0.curenv (PDX (n * PGSIZE)) :=
    hI.pde_other _ _ (Ne.symm hcp)
  have hiff : (uvpd k (PDX (n * PGSIZE)) &&& PTE_P ≠ 0 ∧
      uvpt k (PGNUM (n * PGSIZE)) &&& PTE_P ≠ 0) ↔ present k0 k0.curenv n := by
    simp only [uvpd, uvpt, hI.curenv, hpg, hpte_n, hpde_n, present]
  by_cases hpres : present k0 k0.curenv n
  · right
    refine ⟨hpres, hiff.mpr hpres, ?_⟩
    have hpresk : present k k.curenv n := by
      rw [hI.curenv]
      exact ⟨by rw [hpde_n]; exact hpres.1, by rw [hpte_n]; exact hpres.2⟩
    obtain ⟨k1, hk1, h1, h2, h3, h4, h5, h6, h7, h8, h9, evs1, htr1, hev1⟩ :=
      duppage_spec k c n hc0 (by rw [hI.curenv]; exact hcp)
        (by rw [hI.curenv, hI.statusOf]; exact hp) (by rw [hI.statusOf]; exact hc) hpn hpresk
    rw [hI.curenv, hpte_n] at h8
    refine ⟨k1, by rw [hpg]; exact hk1, ?_⟩
    obtain ⟨evs, htr, hev⟩ := hI.trace
    refine ⟨h1.trans hI.curenv, h2.trans hI.env_free_list, h3.trans hI.page_free_list,
      h4.trans hI.mem, h5.trans hI.statusOf, h6.trans hI.upcallOf, h7.trans hI.userOf,
      ?_, ?_, ?_, ?_, ⟨evs ++ evs1, ?_, ?_⟩, ?_⟩
    · intro e q
      rw [h8, hI.pte]
      by_cases hq : q = n
      · subst hq
        by_cases he : e = c
        · simp [he, hpres]
        · by_cases hep : e = k0.curenv
          · by_cases hr : remapped (pte k0 k0.curenv q).perm
            · simp [he, hep, hr, hpres, Ne.symm hcp]
            · simp [he, hep, hr, hpres, Ne.symm hcp]
          · simp [he, hep]
      · have hlt : q < n + 1 ↔ q < n := by omega
        simp [hq, hlt]
    · intro e i he
      rw [h9, hI.pde_other e i he]
      simp [he]
    · intro i
      rw [h9]
      by_cases hi : i = PDX (n * PGSIZE) ∧ pde k c i &&& PTE_P = 0
      · right
        obtain ⟨hi1, hi2⟩ := hi
        have h0 : pde k0 c i &&& PTE_P = 0 := by
          rcases hI.pde_child i with h | ⟨_, h, _⟩
          · rw [← h]; exact hi2
          · rw [h] at hi2; exact absurd hi2 pdx_P_ne_zero
        have hc3 : c = c ∧ i = PDX (n * PGSIZE) ∧ pde k c i &&& PTE_P = 0 := ⟨rfl, hi1, hi2⟩
        exact ⟨h0, by rw [if_pos hc3], n, Nat.lt_succ_self n, hpres, hi1.symm⟩
      · have hi2 : ¬ (c = c ∧ i = PDX (n * PGSIZE) ∧ pde k c i &&& PTE_P = 0) :=
          fun h => hi ⟨h.2.1, h.2.2⟩
        rw [if_neg hi2]
        rcases hI.pde_child i with h | ⟨h0, h, q, hq, hqp, hqi⟩
        · exact Or.inl h
        · exact Or.inr ⟨h0, h, q, Nat.lt_succ_of_lt hq, hqp, hqi⟩
    · intro q hq hqp
      rw [h9]
      by_cases hqn : q = n
      · subst hqn
        by_cases h0 : pde k c (PDX (q * PGSIZE)) &&& PTE_P = 0
        · simp only [h0, and_self, if_true]
          exact pdx_P_ne_zero
        · simp [h0]
      · have hlt : q < n := by omega
        have := hI.pde_child_set q hlt hqp
        simp [this]
    · rw [htr1, htr, List.append_assoc]
    · intro ev hmem
      rcases List.mem_append.mp hmem with h | h
      · exact hev ev h
      · have := hev1 ev h
        rw [hI.statusOf] at this
        exact this
    · intro q hq hqp hqr
      by_cases hqn : q = n
      · subst hqn
        have hremk : remapped (pte k k.curenv q).perm := by
          rw [hI.curenv, hpte_n]; exact hqr
        have hcow := duppage_cow_trace k c q hc0 (by rw [hI.curenv]; exact hcp)
          (by rw [hI.curenv, hI.statusOf]; exact hp) (by rw [hI.statusOf]; exact hc)
          hpn hpresk hremk k1 hk1
        refine ⟨evs, [], ?_⟩
        rw [hcow, htr, hI.statusOf, List.append_nil]
      · obtain ⟨l1, l2, hl⟩ := hI.trace_cow q (by omega) hqp hqr
        refine ⟨l1, l2 ++ evs1, ?_⟩
        rw [htr1, hl]
        simp only [List.append_assoc]
  · left
    refine ⟨hpres, fun h => hpres (hiff.mp h), ?_⟩
    obtain ⟨evs, htr, hev⟩ := hI.trace
    refine ⟨hI.curenv, hI.env_free_list, hI.page_free_list, hI.mem, hI.statusOf, hI.upcallOf,
      hI.userOf, ?_, hI.pde_other, ?_, ?_, ⟨evs, htr, hev⟩, ?_⟩
    · intro e q
      rw [hI.pte]
      by_cases hq : q = n
      · subst hq; simp [hpres]
      · have hlt : q < n + 1 ↔ q < n := by omega
        simp [hlt]
    · intro i
      rcases hI.pde_child i with h | ⟨h0, h, q, hq, hqp, hqi⟩
      · exact Or.inl h
      · exact Or.inr ⟨h0, h, q, Nat.lt_succ_of_lt hq, hqp, hqi⟩
    · intro q hq hqp
      by_cases hqn : q = n
      · subst hqn; exact absurd hqp hpres
      · exact hI.pde_child_set q (by omega) hqp
    · intro q hq hqp hqr
      by_cases hqn : q = n
      · subst hqn; exact absurd hqp hpres
      · exact hI.trace_cow q (by omega) hqp hqr

theorem fork_loop_from (k0 : Kernel) (c : Int) (hc0 : c ≠ 0) (hcp : c ≠ k0.curenv)
    (hp : statusOf k0 k0.curenv ≠ none) (hc : statusOf k0 c ≠ none) :
    ∀ m n k, NPAGES - n = m → n ≤ NPAGES → LoopInv k0 c n k →
      ∃ k2, fork_loop k c (n * PGSIZE) = Outcome.ret () k2 ∧ LoopInv k0 c NPAGES k2 := by
  intro m
  induction m with
  | zero =>
    intro n k hm hn hI
    have hnn : n = NPAGES := by omega
    subst hnn
    refine ⟨k, ?_, hI⟩
    rw [fork_loop]
    have : ¬ NPAGES * PGSIZE < USTACKTOP := by
      simp only [NPAGES, USTACKTOP, UTOP, PGSIZE]; decide
    rw [dif_neg this]
  | succ m ih =>
    intro n k hm hn hI
    have hlt : n < NPAGES := by omega
    have hpn : n * PGSIZE < USTACKTOP := by
      simp only [NPAGES, USTACKTOP, UTOP, PGSIZE] at hlt ⊢
      omega
    have hnext : (n * PGSIZE + PGSIZE) % 2 ^ 32 = (n + 1) * PGSIZE := by
      simp only [USTACKTOP, UTOP, PGSIZE] at hpn ⊢
      omega
    rw [fork_loop, dif_pos hpn, hnext]
    rcases loopInv_step k0 c n k hc0 hcp hp hc hlt hI with ⟨_, hno, hI1⟩ | ⟨_, hyes, k1, hk1, hI1⟩
    · rw [if_neg hno]
      exact ih (n + 1) k (by omega) (by omega) hI1
    · rw [if_pos hyes, hk1]
      simp only [lt_self_iff_false, if_false]
      exact ih (n + 1) k1 (by omega) (by omega) hI1

/-- The loop of `fork`, run from address 0 in a state where caller and target exist
and differ, returns, and leaves the state described by `LoopInv` at `NPAGES`. -/
theorem fork_loop_spec (k0 : Kernel) (c : Int) (hc0 : c ≠ 0) (hcp : c ≠ k0.curenv)
    (hp : statusOf k0 k0.curenv ≠ none) (hc : statusOf k0 c ≠ none) :
    ∃ k2, fork_loop k0 c 0 = Outcome.ret () k2 ∧ LoopInv k0 c NPAGES k2 := by
  have h := fork_loop_from k0 c hc0 hcp hp hc NPAGES 0 k0 rfl (Nat.zero_le _)
    (loopInv_zero k0 c)
  simpa using h

/-! ## `set_pgfault_handler` and `fork` -/

theorem set_pgfault_handler_spec (k : Kernel) (h : CodePtr)
    (hp : statusOf k k.curenv ≠ none) :
    ∃ k0, set_pgfault_handler k h = Outcome.ret () k0 ∧
      SameTables k k0 ∧ k0.env_free_list = k.env_free_list ∧ statusOf k0 = statusOf k ∧
      (∀ e, e ≠ k.curenv → upcallOf k0 e = upcallOf k e ∧ userOf k0 e = userOf k e) ∧
      (k0.trace = k.trace ∨
        k0.trace = k.trace ++
          [⟨Syscall.env_set_pgfault_upcall 0 CodePtr._pgfault_upcall, statusOf k⟩]) := by
  obtain ⟨pe, hpe⟩ := statusOf_ne_none hp
  unfold set_pgfault_handler
  simp only [hpe]
  by_cases hfirst : pe._pgfault_handler = none
  · simp only [hfirst, if_true]
    obtain ⟨k1, hk1, hT, hfl, hst, hus, hup, htr⟩ :=
      sys_env_set_pgfault_upcall_spec k 0 CodePtr._pgfault_upcall
        (by rw [resolve_zero]; exact hp)
    rw [hk1]
    simp only [lt_self_iff_false, if_false]
    obtain ⟨pe1, hpe1⟩ : ∃ v, k1.envs k1.curenv = some v := by
      apply statusOf_ne_none
      rw [hst, hT.curenv]; exact hp
    refine ⟨_, rfl, ⟨hT.curenv, hT.page_free_list, hT.mem, ?_, ?_⟩, hfl, ?_, ?_, Or.inr htr⟩
    · intro e q
      rw [← hT.pte e q]
      simp only [pte, upd]
      by_cases he : e = k1.curenv
      · subst he; simp [hpe1]
      · simp [he]
    · intro e i
      rw [← hT.pde e i]
      simp only [pde, upd]
      by_cases he : e = k1.curenv
      · subst he; simp [hpe1]
      · simp [he]
    · rw [← hst]
      funext e
      simp only [statusOf, upd]
      by_cases he : e = k1.curenv
      · subst he; simp [hpe1]
      · simp [he]
    · intro e he
      have he1 : e ≠ k1.curenv := by rw [hT.curenv]; exact he
      have hr : resolve k 0 = k.curenv := resolve_zero k
      refine ⟨?_, ?_⟩
      · have := hup e
        rw [hr, if_neg he] at this
        rw [← this]
        simp [upcallOf, upd, he1]
      · rw [← congrFun hus e]
        simp [userOf, upd, he1]
  · simp only [hfirst, if_false]
    refine ⟨_, rfl, ⟨rfl, rfl, rfl, ?_, ?_⟩, rfl, ?_, ?_, Or.inl rfl⟩
    · intro e q
      simp only [pte, upd]
      by_cases he : e = k.curenv
      · subst he; simp [hpe]
      · simp [he]
    · intro e i
      simp only [pde, upd]
      by_cases he : e = k.curenv
      · subst he; simp [hpe]
      · simp [he]
    · funext e
      simp only [statusOf, upd]
      by_cases he : e = k.curenv
      · subst he; simp [hpe]
      · simp [he]
    · intro e he
      simp [upcallOf, userOf, upd, he]

theorem present_congr {k k1 : Kernel} {e : Int} (hpte : ∀ q, pte k1 e q = pte k e q)
    (hpde : ∀ i, pde k1 e i = pde k e i) (q : Nat) : present k1 e q ↔ present k e q := by
  simp only [present, hpte, hpde]

theorem uxpage_not_lt : ¬ UXPAGE < NPAGES := by
  simp only [UXPAGE, NPAGES, PGNUM, UXSTACKTOP, USTACKTOP, UTOP, PGSIZE]; decide

theorem uxpage_pgsize : UXPAGE * PGSIZE = UXSTACKTOP - PGSIZE := by
  simp only [UXPAGE, PGNUM, UXSTACKTOP, UTOP, PGSIZE]

/-- The parent path of `fork`: with the caller present in the process table, a free
process slot and a free frame, every primitive succeeds, `fork` returns the
identity of the child, and the final state is the one `ForkPost` describes. -/
theorem fork_parent_spec (k : Kernel) (slot : Nat) (rest : List Nat) (f : Nat)
    (frest : List Nat) (hp : statusOf k k.curenv ≠ none)
    (hfree : k.env_free_list = slot :: rest) (hslot : statusOf k ((slot : Int) + 1) = none)
    (hframe : k.page_free_list = f :: frest) :
    ∃ k5, fork k = Outcome.ret ((slot : Int) + 1) k5 ∧ ForkPost k ((slot : Int) + 1) f frest k5 := by
  have hc0 : (slot : Int) + 1 ≠ 0 := by omega
  have hcpos : ¬ ((slot : Int) + 1 < 0) := by omega
  have hcp : (slot : Int) + 1 ≠ k.curenv := by
    intro h; rw [h] at hslot; exact hp hslot
  -- registration of the handler
  obtain ⟨ka, hka, hTa, hfla, hsta, hresta, htra⟩ :=
    set_pgfault_handler_spec k CodePtr.pgfault hp
  -- creation of the child
  obtain ⟨k1, hk1, hcur1, -, hpfl1, hmem1, hst1, hup1, hus1, hpte1, hpde1, htr1⟩ :=
    sys_exofork_spec ka slot rest (hfla.trans hfree)
  have hcur1k : k1.curenv = k.curenv := hcur1.trans hTa.curenv
  have hst1k : statusOf k1 = setupStatus k ((slot : Int) + 1) := by
    funext e; rw [hst1 e, hsta]; rfl
  have hp1 : statusOf k1 k1.curenv ≠ none := by
    rw [hst1k, hcur1k]
    simp only [setupStatus, if_neg (Ne.symm hcp)]
    exact hp
  have hc1 : statusOf k1 ((slot : Int) + 1) ≠ none := by
    rw [hst1k]; simp [setupStatus]
  have hptep : ∀ q, pte k1 k.curenv q = pte k k.curenv q := by
    intro q; rw [hpte1, if_neg (Ne.symm hcp), hTa.pte]
  have hpdep : ∀ i, pde k1 k.curenv i = pde k k.curenv i := by
    intro i; rw [hpde1, if_neg (Ne.symm hcp), hTa.pde]
  have hpres : ∀ q, present k1 k1.curenv q ↔ present k k.curenv q := by
    intro q; rw [hcur1k]; exact present_congr hptep hpdep q
  -- the duplication loop
  obtain ⟨k2, hk2, hL⟩ :=
    fork_loop_spec k1 ((slot : Int) + 1) hc0 (by rw [hcur1k]; exact hcp) hp1 hc1
  -- the child's fault-handling stack
  obtain ⟨k3, hk3, hI3, hpfl3, hmem3, htr3⟩ :=
    sys_page_alloc_spec k2 ((slot : Int) + 1) (UXSTACKTOP - PGSIZE)
      (PTE_W ||| PTE_U ||| PTE_P) f frest
      (by rw [resolve_ne_zero k2 hc0, hL.statusOf]; exact hc1)
      (by rw [hL.page_free_list, hpfl1, hTa.page_free_list]; exact hframe)
  rw [resolve_ne_zero k2 hc0] at hI3
  -- the child's fault entry point
  obtain ⟨k4, hk4, hT4, -, hst4, hus4, hup4, htr4⟩ :=
    sys_env_set_pgfault_upcall_spec k3 ((slot : Int) + 1) CodePtr._pgfault_upcall
      (by rw [resolve_ne_zero k3 hc0, hI3.statusOf, hL.statusOf]; exact hc1)
  rw [resolve_ne_zero k3 hc0] at hup4
  -- the child becomes runnable
  obtain ⟨k5, hk5, hT5, -, hup5, hus5, hst5, htr5⟩ :=
    sys_env_set_status_spec k4 ((slot : Int) + 1) ENV_RUNNABLE
      (by rw [resolve_ne_zero k4 hc0, hst4, hI3.statusOf, hL.statusOf]; exact hc1)
  rw [resolve_ne_zero k4 hc0] at hst5
  refine ⟨k5, ?_, ?_⟩
  · unfold fork
    rw [hka]
    simp only [hk1, hcpos, hc0, if_false, hk2, hk3, hk4, hk5, lt_self_iff_false]
  · have hst3k : statusOf k3 = setupStatus k ((slot : Int) + 1) := by
      rw [hI3.statusOf, hL.statusOf, hst1k]
    have hst2k : statusOf k2 = setupStatus k ((slot : Int) + 1) := by
      rw [hL.statusOf, hst1k]
    have hpresk : ∀ q, present k1 k.curenv q ↔ present k k.curenv q := by
      intro q; exact present_congr hptep hpdep q
    refine ⟨?_, ?_, ?_, ?_, ?_, ?_, ?_, ?_, ?_, ?_, ?_⟩
    · rw [hT5.curenv, hT4.curenv, hI3.curenv, hL.curenv, hcur1k]
    · rw [hT5.page_free_list, hT4.page_free_list, hpfl3]
    · rw [hT5.mem, hT4.mem, hmem3, hL.mem, hmem1, hTa.mem]
    · intro e
      rw [hst5 e, hst4, hst3k]
      by_cases he : e = (slot : Int) + 1
      · simp [he]
      · simp [he, setupStatus]
    · rw [hup5, hup4]; simp
    · intro e hec hep
      refine ⟨?_, ?_⟩
      · rw [hup5, hup4, if_neg hec, hI3.upcallOf, hL.upcallOf, hup1, if_neg hec]
        exact (hresta e hep).1
      · rw [hus5, hus4, hI3.userOf, hL.userOf, hus1 e, if_neg hec]
        exact (hresta e hep).2
    · intro e q
      rw [hT5.pte, hT4.pte, hI3.pte, hL.pte]
      simp only [hcur1k, hptep, hpresk]
      have hux : PGNUM (UXSTACKTOP - PGSIZE) = UXPAGE := rfl
      rw [hux]
      by_cases he : e = (slot : Int) + 1
      · subst he
        by_cases hq : q = UXPAGE
        · subst hq
          simp [uxpage_not_lt]
        · by_cases hd : q < NPAGES ∧ present k k.curenv q
          · simp [hq, hd]
          · have hd2 : ¬ (q < NPAGES ∧ present k k.curenv q ∧
                (slot : Int) + 1 = k.curenv ∧ remapped (pte k k.curenv q).perm) :=
              fun h => hcp h.2.2.1
            simp only [hq, and_false, if_false, and_true, hd, hd2]
            rw [hpte1]; simp
      · have h1 : ¬ (e = (slot : Int) + 1 ∧ q = UXPAGE) := fun h => he h.1
        have h2 : ¬ (q < NPAGES ∧ present k k.curenv q ∧ e = (slot : Int) + 1) :=
          fun h => he h.2.2
        rw [if_neg h1, if_neg h2, if_neg he]
        by_cases hd : q < NPAGES ∧ present k k.curenv q ∧ e = k.curenv ∧
            remapped (pte k k.curenv q).perm
        · rw [if_pos hd, if_pos hd]
        · rw [if_neg hd, if_neg hd, hpte1, if_neg he, hTa.pte]
    · intro e i he
      rw [hT5.pde, hT4.pde, hI3.pde]
      have h1 : ¬ (e = (slot : Int) + 1 ∧ i = PDX (UXSTACKTOP - PGSIZE) ∧
          pde k2 e i &&& PTE_P = 0) := fun h => he h.1
      rw [if_neg h1, hL.pde_other e i he, hpde1, if_neg he, hTa.pde]
    · intro q hq
      rw [hT5.pde, hT4.pde, hI3.pde]
      by_cases h0 : pde k2 ((slot : Int) + 1) (PDX (q * PGSIZE)) &&& PTE_P = 0
      · rcases hq with ⟨hq1, hq2⟩ | hq
        · exact absurd h0 (hL.pde_child_set q hq1 (by rw [hcur1k]; exact (hpresk q).mpr hq2))
        · subst hq
          rw [uxpage_pgsize] at h0 ⊢
          simp only [h0, and_self, if_true]
          exact pdx_P_ne_zero
      · have h1 : ¬ ((slot : Int) + 1 = (slot : Int) + 1 ∧
            PDX (q * PGSIZE) = PDX (UXSTACKTOP - PGSIZE) ∧
            pde k2 ((slot : Int) + 1) (PDX (q * PGSIZE)) &&& PTE_P = 0) := fun h => h0 h.2.2
        rw [if_neg h1]
        exact h0
    · obtain ⟨evs, htr2, hevs⟩ := hL.trace
      have hpre : ∃ pre, ka.trace = k.trace ++ pre ∧ (pre = [] ∨
          pre = [⟨Syscall.env_set_pgfault_upcall 0 CodePtr._pgfault_upcall, statusOf k⟩]) := by
        rcases htra with h | h
        · exact ⟨[], by simp [h], Or.inl rfl⟩
        · exact ⟨_, h, Or.inr rfl⟩
      obtain ⟨pre, hpre1, hpre2⟩ := hpre
      refine ⟨pre, evs, ?_, hpre2, ?_⟩
      · rw [htr5, htr4, htr3, htr2, htr1, hpre1, hst4, hst3k, hst2k, hsta]
        simp only [List.append_assoc, List.singleton_append, List.cons_append, List.nil_append]
      · intro ev hev
        have := hevs ev hev
        rw [hst1k] at this
        exact this
    · intro q hq hqp hqr
      obtain ⟨l1, l2, hl⟩ := hL.trace_cow q hq
        (by rw [hcur1k]; exact (hpresk q).mpr hqp)
        (by rw [hcur1k, hptep]; exact hqr)
      have hpre : ∃ pre, ka.trace = k.trace ++ pre := by
        rcases htra with h | h
        · exact ⟨[], by simp [h]⟩
        · exact ⟨_, h⟩
      obtain ⟨pre, hpre1⟩ := hpre
      refine ⟨pre ++ [⟨Syscall.exofork, statusOf ka⟩] ++ l1,
        l2 ++ [⟨Syscall.page_alloc ((slot : Int) + 1) (UXSTACKTOP - PGSIZE)
            (PTE_W ||| PTE_U ||| PTE_P), statusOf k2⟩] ++
          [⟨Syscall.env_set_pgfault_upcall ((slot : Int) + 1) CodePtr._pgfault_upcall,
            statusOf k3⟩] ++
          [⟨Syscall.env_set_status ((slot : Int) + 1) ENV_RUNNABLE, statusOf k4⟩], ?_⟩
      rw [htr5, htr4, htr3, hl, htr1, hpre1, hst1k]
      simp only [List.append_assoc]

/-! ## `memmove` and `pgfault` -/

theorem pgnum_add (q j : Nat) (hj : j < PGSIZE) : PGNUM (q * PGSIZE + j) = q := by
  simp only [PGNUM, PGSIZE] at hj ⊢
  omega

theorem mod_add (q j : Nat) (hj : j < PGSIZE) : (q * PGSIZE + j) % PGSIZE = j := by
  simp only [PGSIZE] at hj ⊢
  omega

theorem translate_page (k : Kernel) (q j : Nat) (hj : j < PGSIZE)
    (hpres : present k k.curenv q) :
    translate k (q * PGSIZE + j) = some ((pte k k.curenv q).frame, j) := by
  unfold translate
  rw [pgnum_add q j hj, if_pos hpres, mod_add q j hj]

theorem read_byte_page (k : Kernel) (q j : Nat) (hj : j < PGSIZE)
    (hpres : present k k.curenv q) :
    read_byte k (q * PGSIZE + j) = k.mem (pte k k.curenv q).frame j := by
  unfold read_byte
  rw [translate_page k q j hj hpres]

theorem store_target_page (k : Kernel) (q j : Nat) (hj : j < PGSIZE)
    (hpres : present k k.curenv q) (hw : (pte k k.curenv q).perm &&& PTE_W ≠ 0) :
    store_target k (q * PGSIZE + j) = some ((pte k k.curenv q).frame, j) := by
  unfold store_target
  rw [pgnum_add q j hj, if_pos ⟨hpres, hw⟩, mod_add q j hj]

/-- Copying `n` bytes from the start of one mapped page to the start of another
mapped, writable page with `memmove`: the frame of the destination page receives
the bytes of the frame of the source page; no other byte changes. -/
theorem memmove_page_n (k : Kernel) (qd qs n : Nat) (hn : n ≤ PGSIZE)
    (hd : present k k.curenv qd) (hw : (pte k k.curenv qd).perm &&& PTE_W ≠ 0)
    (hs : present k k.curenv qs) (g off : Nat) :
    (memmove k (qd * PGSIZE) (qs * PGSIZE) n).mem g off =
      if g = (pte k k.curenv qd).frame ∧ off < n then k.mem (pte k k.curenv qs).frame off
      else k.mem g off := by
  show (match (List.range n).reverse.find?
      (fun i => store_target k (qd * PGSIZE + i) = some (g, off)) with
    | some i => read_byte k (qs * PGSIZE + i)
    | none => k.mem g off) = _
  cases hfind : (List.range n).reverse.find?
      (fun i => store_target k (qd * PGSIZE + i) = some (g, off)) with
  | some i =>
    have hi : i < n := by
      have := List.mem_of_find?_eq_some hfind
      simpa using this
    have hpred := List.find?_some hfind
    simp only [decide_eq_true_eq] at hpred
    rw [store_target_page k qd i (by omega) hd hw] at hpred
    simp only [Option.some.injEq, Prod.mk.injEq] at hpred
    obtain ⟨h1, h2⟩ := hpred
    subst h2
    have hc : g = (pte k k.curenv qd).frame ∧ i < n := ⟨h1.symm, hi⟩
    simp only [if_pos hc]
    exact read_byte_page k qs i (by omega) hs
  | none =>
    rw [List.find?_eq_none] at hfind
    have hc : ¬ (g = (pte k k.curenv qd).frame ∧ off < n) := by
      rintro ⟨h1, h2⟩
      have hmem : off ∈ (List.range n).reverse := by simpa using h2
      have := hfind off hmem
      simp only [decide_eq_true_eq] at this
      apply this
      rw [store_target_page k qd off (by omega) hd hw, h1]
    simp only [if_neg hc]

/-- The copy `memmove` makes changes the content of frames only. -/
theorem memmove_frame (k : Kernel) (dst src n : Nat) :
    (memmove k dst src n).envs = k.envs ∧ (memmove k dst src n).curenv = k.curenv ∧
    (memmove k dst src n).env_free_list = k.env_free_list ∧
    (memmove k dst src n).page_free_list = k.page_free_list ∧
    (memmove k dst src n).trace = k.trace :=
  ⟨rfl, rfl, rfl, rfl, rfl⟩

theorem pte_congr {k k1 : Kernel} (h : k1.envs = k.envs) (e : Int) (r : Nat) :
    pte k1 e r = pte k e r := by
  unfold pte; rw [h]

theorem pde_congr {k k1 : Kernel} (h : k1.envs = k.envs) (e : Int) (i : Nat) :
    pde k1 e i = pde k e i := by
  unfold pde; rw [h]

theorem statusOf_congr {k k1 : Kernel} (h : k1.envs = k.envs) : statusOf k1 = statusOf k := by
  unfold statusOf; rw [h]

theorem upcallOf_congr {k k1 : Kernel} (h : k1.envs = k.envs) : upcallOf k1 = upcallOf k := by
  unfold upcallOf; rw [h]

theorem userOf_congr {k k1 : Kernel} (h : k1.envs = k.envs) : userOf k1 = userOf k := by
  unfold userOf; rw [h]

theorem pftemp_page : PGNUM PFTEMP * PGSIZE = PFTEMP := by
  simp only [PGNUM, PFTEMP, UTEMP, PTSIZE, PGSIZE]

theorem rounddown_page (va : Nat) : ROUNDDOWN va PGSIZE = PGNUM va * PGSIZE := by
  simp only [ROUNDDOWN, PGNUM, PGSIZE]
  omega

theorem pgnum_page (q : Nat) : PGNUM (q * PGSIZE) = q := by
  simp [PGNUM, PGSIZE]

theorem uwp_P : (PTE_U ||| PTE_W ||| PTE_P) &&& PTE_P ≠ 0 := by decide

theorem uwp_W : (PTE_U ||| PTE_W ||| PTE_P) &&& PTE_W ≠ 0 := by decide

theorem uwp_COW : (PTE_U ||| PTE_W ||| PTE_P) &&& PTE_COW = 0 := by decide

/-- What `pgfault` does on a write fault to a page whose entry carries the
copy-on-write bit, when the faulting process exists and a frame `f` is free: all
four primitives succeed and the handler returns.  The entry of the faulting page
becomes `⟨f, PTE_U|PTE_W|PTE_P⟩`, the entry of the page of `PFTEMP` is cleared
afterwards (also when it is the faulting page itself), no other entry changes;
and when the faulting page is mapped, is not the page of `PFTEMP` and `f` is not
its frame, `f` holds the `PGSIZE` bytes of the original frame. -/
theorem pgfault_spec (k : Kernel) (utf : UTrapframe) (f : Nat) (frest : List Nat)
    (hp : statusOf k k.curenv ≠ none)
    (hwr : utf.utf_err &&& FEC_WR ≠ 0)
    (hcow : uvpt k (PGNUM utf.utf_fault_va) &&& PTE_COW ≠ 0)
    (hframe : k.page_free_list = f :: frest) :
    ∃ k4, pgfault k utf = Outcome.ret () k4 ∧
      k4.curenv = k.curenv ∧ k4.page_free_list = frest ∧
      statusOf k4 = statusOf k ∧ upcallOf k4 = upcallOf k ∧ userOf k4 = userOf k ∧
      (∀ e r, pte k4 e r =
        if e = k.curenv ∧ r = PGNUM PFTEMP then ⟨0, 0⟩
        else if e = k.curenv ∧ r = PGNUM utf.utf_fault_va then ⟨f, PTE_U ||| PTE_W ||| PTE_P⟩
        else pte k e r) ∧
      (∀ e i, e ≠ k.curenv ∨ pde k e i &&& PTE_P ≠ 0 → pde k4 e i = pde k e i) ∧
      (present k k.curenv (PGNUM utf.utf_fault_va) →
        PGNUM utf.utf_fault_va ≠ PGNUM PFTEMP →
        f ≠ (pte k k.curenv (PGNUM utf.utf_fault_va)).frame →
        ∀ g off, k4.mem g off =
          if g = f then
            if off < PGSIZE then k.mem (pte k k.curenv (PGNUM utf.utf_fault_va)).frame off
            else 0
          else k.mem g off) := by
  have hc : ¬ (utf.utf_err &&& FEC_WR = 0 ∨
      uvpt k (PGNUM utf.utf_fault_va) &&& PTE_COW = 0) := by
    rintro (h | h)
    · exact hwr h
    · exact hcow h
  -- the fresh frame at PFTEMP
  obtain ⟨k1, hk1, hI1, hpfl1, hmem1, -⟩ :=
    sys_page_alloc_spec k 0 PFTEMP (PTE_U ||| PTE_W ||| PTE_P) f frest
      (by rw [resolve_zero]; exact hp) hframe
  rw [resolve_zero] at hI1
  have hpte1 : pte k1 k.curenv (PGNUM PFTEMP) = ⟨f, PTE_U ||| PTE_W ||| PTE_P⟩ := by
    rw [hI1.pte]; simp
  have hpde1 : pde k1 k.curenv (PDX PFTEMP) &&& PTE_P ≠ 0 := by
    rw [hI1.pde]
    by_cases h0 : pde k k.curenv (PDX PFTEMP) &&& PTE_P = 0
    · simp only [h0, and_self, if_true]; exact pdx_P_ne_zero
    · simp only [h0, and_false, if_false]; exact h0
  have hpres1 : present k1 k.curenv (PGNUM PFTEMP) := by
    refine ⟨?_, ?_⟩
    · rw [pftemp_page]; exact hpde1
    · rw [hpte1]; exact uwp_P
  -- the copy
  obtain ⟨k2, hk2, hm1, hm2, hm3, hm4, -⟩ :
      ∃ k2, memmove k1 PFTEMP (ROUNDDOWN utf.utf_fault_va PGSIZE) PGSIZE = k2 ∧
        k2.envs = k1.envs ∧ k2.curenv = k1.curenv ∧ k2.env_free_list = k1.env_free_list ∧
        k2.page_free_list = k1.page_free_list ∧ k2.trace = k1.trace :=
    ⟨_, rfl, memmove_frame k1 PFTEMP (ROUNDDOWN utf.utf_fault_va PGSIZE) PGSIZE⟩
  -- the swap
  obtain ⟨k3, hk3, hI3, hpfl3, hmem3, -⟩ :=
    sys_page_map_spec k2 0 PFTEMP 0 (ROUNDDOWN utf.utf_fault_va PGSIZE)
      (PTE_U ||| PTE_W ||| PTE_P)
      (by rw [resolve_zero, hm2, hI1.curenv, statusOf_congr hm1, hI1.statusOf]; exact hp)
      (by rw [resolve_zero, hm2, hI1.curenv, statusOf_congr hm1, hI1.statusOf]; exact hp)
      (by
        rw [resolve_zero, hm2, hI1.curenv]
        exact (present_congr (pte_congr hm1 _) (pde_congr hm1 _) _).mpr hpres1)
  rw [resolve_zero, hm2, hI1.curenv, pte_congr hm1, hpte1, rounddown_page] at hI3
  -- the scratch mapping goes away
  obtain ⟨k4, hk4, hcur4, -, hpfl4, hmem4, hst4, hup4, hus4, hpte4, hpde4, -⟩ :=
    sys_page_unmap_spec k3 0 PFTEMP
      (by
        rw [resolve_zero, hI3.curenv, hm2, hI1.curenv, hI3.statusOf, statusOf_congr hm1,
          hI1.statusOf]
        exact hp)
  rw [resolve_zero, hI3.curenv, hm2, hI1.curenv] at hpte4
  refine ⟨k4, ?_, ?_, ?_, ?_, ?_, ?_, ?_, ?_, ?_⟩
  · unfold pgfault
    simp only [hc, if_false, hk1, lt_self_iff_false, hk2, hk3, hk4]
  · rw [hcur4, hI3.curenv, hm2, hI1.curenv]
  · rw [hpfl4, hpfl3, hm4, hpfl1]
  · rw [hst4, hI3.statusOf, statusOf_congr hm1, hI1.statusOf]
  · rw [hup4, hI3.upcallOf, upcallOf_congr hm1, hI1.upcallOf]
  · rw [hus4, hI3.userOf, userOf_congr hm1, hI1.userOf]
  · intro e r
    rw [hpte4, hI3.pte, pte_congr hm1, hI1.pte, pgnum_page]
    by_cases h1 : e = k.curenv ∧ r = PGNUM PFTEMP
    · simp only [if_pos h1]
    · simp only [if_neg h1]
  · intro e i hei
    rw [hpde4, hI3.pde, pde_congr hm1, hI1.pde]
    have h1 : ¬ (e = k.curenv ∧ i = PDX PFTEMP ∧ pde k e i &&& PTE_P = 0) := by
      rintro ⟨h1, -, h3⟩
      rcases hei with h | h
      · exact h h1
      · exact h h3
    rw [if_neg h1]
    have h2 : ¬ (e = k.curenv ∧ i = PDX (PGNUM utf.utf_fault_va * PGSIZE) ∧
        pde k e i &&& PTE_P = 0) := by
      rintro ⟨h1, -, h3⟩
      rcases hei with h | h
      · exact h h1
      · exact h h3
    rw [if_neg h2]
  · intro hpres hnot hfresh g off
    have hptes : pte k1 k.curenv (PGNUM utf.utf_fault_va) =
        pte k k.curenv (PGNUM utf.utf_fault_va) := by
      rw [hI1.pte]
      have : ¬ (k.curenv = k.curenv ∧ PGNUM utf.utf_fault_va = PGNUM PFTEMP) :=
        fun h => hnot h.2
      rw [if_neg this]
    have hpdes : pde k1 k.curenv (PDX (PGNUM utf.utf_fault_va * PGSIZE)) =
        pde k k.curenv (PDX (PGNUM utf.utf_fault_va * PGSIZE)) := by
      rw [hI1.pde]
      have : ¬ (k.curenv = k.curenv ∧
          PDX (PGNUM utf.utf_fault_va * PGSIZE) = PDX PFTEMP ∧
          pde k k.curenv (PDX (PGNUM utf.utf_fault_va * PGSIZE)) &&& PTE_P = 0) :=
        fun h => hpres.1 h.2.2
      rw [if_neg this]
    have hpress : present k1 k1.curenv (PGNUM utf.utf_fault_va) := by
      rw [hI1.curenv]
      exact ⟨by rw [hpdes]; exact hpres.1, by rw [hptes]; exact hpres.2⟩
    have hpresd : present k1 k1.curenv (PGNUM PFTEMP) := by
      rw [hI1.curenv]; exact hpres1
    have hwd : (pte k1 k1.curenv (PGNUM PFTEMP)).perm &&& PTE_W ≠ 0 := by
      rw [hI1.curenv, hpte1]; exact uwp_W
    have hcopy := memmove_page_n k1 (PGNUM PFTEMP) (PGNUM utf.utf_fault_va) PGSIZE
      (le_refl _) hpresd hwd hpress g off
    rw [pftemp_page, ← rounddown_page, hk2] at hcopy
    rw [hmem4, hmem3, hcopy, hI1.curenv, hpte1, hptes, hmem1]
    by_cases hg : g = f
    · subst hg
      by_cases hoff : off < PGSIZE
      · have hy : g = g ∧ off < PGSIZE := ⟨rfl, hoff⟩
        rw [if_pos hy, if_pos rfl, if_pos hoff]
        simp [upd, Ne.symm hfresh]
      · have hn : ¬ (g = g ∧ off < PGSIZE) := fun h => hoff h.2
        rw [if_neg hn, if_pos rfl, if_neg hoff]
        simp [upd]
    · have hn : ¬ (g = (⟨f, PTE_U ||| PTE_W ||| PTE_P⟩ : Pte).frame ∧ off < PGSIZE) :=
        fun h => hg h.1
      rw [if_neg hn, if_neg hg]
      simp [upd, hg]

/-! ## Facts about the flag bits -/

theorem cow_perm_P : (PTE_COW ||| PTE_U ||| PTE_P) &&& PTE_P ≠ 0 := by decide

theorem cow_perm_COW : (PTE_COW ||| PTE_U ||| PTE_P) &&& PTE_COW ≠ 0 := by decide

theorem and_syscall (x b : Nat) (hb : b &&& PTE_SYSCALL = b) :
    (x &&& PTE_SYSCALL) &&& b = x &&& b := by
  rw [Nat.land_assoc, Nat.land_comm PTE_SYSCALL b, hb]

theorem and_syscall_P (x : Nat) : (x &&& PTE_SYSCALL) &&& PTE_P = x &&& PTE_P :=
  and_syscall x PTE_P (by decide)

theorem and_syscall_W (x : Nat) : (x &&& PTE_SYSCALL) &&& PTE_W = x &&& PTE_W :=
  and_syscall x PTE_W (by decide)

theorem and_syscall_COW (x : Nat) : (x &&& PTE_SYSCALL) &&& PTE_COW = x &&& PTE_COW :=
  and_syscall x PTE_COW (by decide)

theorem dupperm_P (x : Nat) (h : x &&& PTE_P ≠ 0) : dupperm x &&& PTE_P ≠ 0 := by
  unfold dupperm
  split
  · rw [and_syscall_P]; exact h
  · split
    · exact cow_perm_P
    · rw [and_syscall_P]; exact h

theorem lt_npages_iff (q : Nat) : q < NPAGES ↔ q * PGSIZE < USTACKTOP := by
  simp only [NPAGES, USTACKTOP, UTOP, PGSIZE]
  omega

/-- The frames the example state maps are among the frames 1 to 8. -/
theorem demo_frames_mapped (f : Nat) (hf : ¬ (1 ≤ f ∧ f ≤ 8)) :
    ∀ e r, present demoKernel e r → (pte demoKernel e r).frame ≠ f := by
  intro e r hpres heq
  apply hf
  have hperm := hpres.2
  unfold pte at hperm heq
  by_cases he : e = 1
  · subst he
    simp only [demoKernel, if_true, demoEnv] at hperm heq
    unfold demoPgtab at hperm heq
    split_ifs at hperm heq <;> simp only at hperm heq <;>
      first | omega | exact absurd (by decide) hperm
  · simp only [demoKernel, if_neg he] at hperm
    exact absurd rfl hperm

/-! ## The claims -/

theorem pgnum_rounddown (va : Nat) : PGNUM (ROUNDDOWN va PGSIZE) = PGNUM va := by
  rw [rounddown_page, pgnum_page]

/-- C2 (as amended): for every fault that is a write to a mapped page whose table
entry carries the copy-on-write bit and that is not the page of the scratch
address `PFTEMP`, with the faulting process present and a free frame `f` that no
process maps (so every primitive succeeds and the frame is fresh), `pgfault`
returns and leaves the faulting process mapping that page (the faulting address
rounded down to its page boundary) to the frame `f`, distinct from the original
one, with permissions exactly `PTE_U|PTE_W|PTE_P` (copy-on-write cleared) and
with the full `PGSIZE` bytes of the original page as content; the page of `PFTEMP`
is unmapped again, the mappings of every other process are unchanged, and so is
the content of the original frame. -/
theorem C2_pgfault_private_copy (k : Kernel) (utf : UTrapframe) (f : Nat)
    (frest : List Nat)
    (hp : statusOf k k.curenv ≠ none)
    (hwr : utf.utf_err &&& FEC_WR ≠ 0)
    (hcow : uvpt k (PGNUM utf.utf_fault_va) &&& PTE_COW ≠ 0)
    (hpres : present k k.curenv (PGNUM utf.utf_fault_va))
    (hnot : PGNUM utf.utf_fault_va ≠ PGNUM PFTEMP)
    (hframe : k.page_free_list = f :: frest)
    (hfresh : ∀ e r, present k e r → (pte k e r).frame ≠ f) :
    ∃ k4, pgfault k utf = Outcome.ret () k4 ∧
      present k4 k.curenv (PGNUM (ROUNDDOWN utf.utf_fault_va PGSIZE)) ∧
      pte k4 k.curenv (PGNUM (ROUNDDOWN utf.utf_fault_va PGSIZE)) =
        ⟨f, PTE_U ||| PTE_W ||| PTE_P⟩ ∧
      (pte k4 k.curenv (PGNUM (ROUNDDOWN utf.utf_fault_va PGSIZE))).perm &&& PTE_COW = 0 ∧
      f ≠ (pte k k.curenv (PGNUM utf.utf_fault_va)).frame ∧
      (∀ off, off < PGSIZE →
        k4.mem f off = k.mem (pte k k.curenv (PGNUM utf.utf_fault_va)).frame off) ∧
      ¬ present k4 k.curenv (PGNUM PFTEMP) ∧
      (∀ e, e ≠ k.curenv → (∀ r, pte k4 e r = pte k e r) ∧ (∀ i, pde k4 e i = pde k e i)) ∧
      (∀ off, k4.mem (pte k k.curenv (PGNUM utf.utf_fault_va)).frame off =
        k.mem (pte k k.curenv (PGNUM utf.utf_fault_va)).frame off) := by
  obtain ⟨k4, hk4, -, -, -, -, -, hpte, hpde, hmem⟩ :=
    pgfault_spec k utf f frest hp hwr hcow hframe
  have hne : f ≠ (pte k k.curenv (PGNUM utf.utf_fault_va)).frame :=
    Ne.symm (hfresh _ _ hpres)
  have hmem1 := hmem hpres hnot hne
  have hq : pte k4 k.curenv (PGNUM utf.utf_fault_va) = ⟨f, PTE_U ||| PTE_W ||| PTE_P⟩ := by
    rw [hpte]
    have h1 : ¬ (k.curenv = k.curenv ∧ PGNUM utf.utf_fault_va = PGNUM PFTEMP) :=
      fun h => hnot h.2
    rw [if_neg h1, if_pos ⟨rfl, rfl⟩]
  rw [pgnum_rounddown]
  refine ⟨k4, hk4, ⟨?_, ?_⟩, hq, ?_, hne, ?_, ?_, ?_, ?_⟩
  · rw [hpde _ _ (Or.inr hpres.1)]; exact hpres.1
  · rw [hq]; exact uwp_P
  · rw [hq]; exact uwp_COW
  · intro off hoff
    rw [hmem1, if_pos rfl, if_pos hoff]
  · intro h
    have h2 := h.2
    rw [hpte, if_pos ⟨rfl, rfl⟩] at h2
    exact h2 rfl
  · intro e he
    refine ⟨?_, ?_⟩
    · intro r
      rw [hpte]
      have h1 : ¬ (e = k.curenv ∧ r = PGNUM PFTEMP) := fun h => he h.1
      have h2 : ¬ (e = k.curenv ∧ r = PGNUM utf.utf_fault_va) := fun h => he h.1
      rw [if_neg h1, if_neg h2]
    · intro i
      exact hpde e i (Or.inl he)
  · intro off
    rw [hmem1, if_neg (Ne.symm hne)]

/-- Witness for C2: a write fault inside the copy-on-write page 0x804 of the example
parent; frame 9 is free and mapped nowhere. -/
theorem C2_pgfault_private_copy_witness :
    (statusOf demoKernel demoKernel.curenv ≠ none ∧
      (⟨0x804004, FEC_WR⟩ : UTrapframe).utf_err &&& FEC_WR ≠ 0 ∧
      uvpt demoKernel (PGNUM (⟨0x804004, FEC_WR⟩ : UTrapframe).utf_fault_va) &&& PTE_COW ≠ 0 ∧
      present demoKernel demoKernel.curenv (PGNUM (⟨0x804004, FEC_WR⟩ : UTrapframe).utf_fault_va) ∧
      PGNUM (⟨0x804004, FEC_WR⟩ : UTrapframe).utf_fault_va ≠ PGNUM PFTEMP ∧
      demoKernel.page_free_list = 9 :: [10] ∧
      ∀ e r, present demoKernel e r → (pte demoKernel e r).frame ≠ 9) ∧
    ∃ k4, pgfault demoKernel ⟨0x804004, FEC_WR⟩ = Outcome.ret () k4 ∧
      present k4 demoKernel.curenv
        (PGNUM (ROUNDDOWN (⟨0x804004, FEC_WR⟩ : UTrapframe).utf_fault_va PGSIZE)) ∧
      pte k4 demoKernel.curenv
          (PGNUM (ROUNDDOWN (⟨0x804004, FEC_WR⟩ : UTrapframe).utf_fault_va PGSIZE)) =
        ⟨9, PTE_U ||| PTE_W ||| PTE_P⟩ ∧
      (pte k4 demoKernel.curenv
        (PGNUM (ROUNDDOWN (⟨0x804004, FEC_WR⟩ : UTrapframe).utf_fault_va PGSIZE))).perm
          &&& PTE_COW = 0 ∧
      9 ≠ (pte demoKernel demoKernel.curenv
        (PGNUM (⟨0x804004, FEC_WR⟩ : UTrapframe).utf_fault_va)).frame ∧
      (∀ off, off < PGSIZE →
        k4.mem 9 off = demoKernel.mem (pte demoKernel demoKernel.curenv
          (PGNUM (⟨0x804004, FEC_WR⟩ : UTrapframe).utf_fault_va)).frame off) ∧
      ¬ present k4 demoKernel.curenv (PGNUM PFTEMP) ∧
      (∀ e, e ≠ demoKernel.curenv →
        (∀ r, pte k4 e r = pte demoKernel e r) ∧ (∀ i, pde k4 e i = pde demoKernel e i)) ∧
      (∀ off, k4.mem (pte demoKernel demoKernel.curenv
          (PGNUM (⟨0x804004, FEC_WR⟩ : UTrapframe).utf_fault_va)).frame off =
        demoKernel.mem (pte demoKernel demoKernel.curenv
          (PGNUM (⟨0x804004, FEC_WR⟩ : UTrapframe).utf_fault_va)).frame off) :=
  ⟨⟨by decide, by decide, by decide, by decide, by decide, rfl, demo_frames_mapped 9 (by decide)⟩,
    C2_pgfault_private_copy demoKernel ⟨0x804004, FEC_WR⟩ 9 [10]
      (by decide) (by decide) (by decide) (by decide) (by decide) rfl
      (demo_frames_mapped 9 (by decide))⟩

/-- C2 as stated fails for a write fault at `PFTEMP` itself: page 0x7ff of the
example parent is mapped and carries the copy-on-write bit, every primitive
succeeds and `pgfault` returns, but the faulting page is left unmapped (its entry
cleared) instead of mapped writable to a fresh frame. -/
theorem C2_counterexample :
    ∃ k4, pgfault demoKernel ⟨PFTEMP, FEC_WR⟩ = Outcome.ret () k4 ∧
      (⟨PFTEMP, FEC_WR⟩ : UTrapframe).utf_err &&& FEC_WR ≠ 0 ∧
      uvpt demoKernel (PGNUM PFTEMP) &&& PTE_COW ≠ 0 ∧
      present demoKernel 1 (PGNUM PFTEMP) ∧
      pte k4 1 (PGNUM (ROUNDDOWN PFTEMP PGSIZE)) = ⟨0, 0⟩ ∧
      ¬ present k4 1 (PGNUM (ROUNDDOWN PFTEMP PGSIZE)) := by
  obtain ⟨k4, hk4, -, -, -, -, -, hpte, -, -⟩ :=
    pgfault_spec demoKernel ⟨PFTEMP, FEC_WR⟩ 9 [10] (by decide) (by decide) (by decide) rfl
  have h0 : pte k4 1 (PGNUM (ROUNDDOWN PFTEMP PGSIZE)) = ⟨0, 0⟩ := by
    rw [hpte, pgnum_rounddown]
    exact if_pos ⟨rfl, rfl⟩
  refine ⟨k4, hk4, by decide, by decide, by decide, h0, ?_⟩
  intro h
  have h2 := h.2
  rw [h0] at h2
  exact h2 rfl

/-- C3: `pgfault` aborts at its validation step, that is, it panics with the
validation diagnostic in the very state it was called in (no primitive has been
called, nothing has been copied) and does not return, if and only if the fault's
error code lacks the write bit or the table entry of the faulting page lacks the
copy-on-write bit. -/
theorem C3_pgfault_validation (k : Kernel) (utf : UTrapframe) :
    pgfault k utf = Outcome.abort "pgfault: not a write or to a copy-on-write page" k ↔
      (utf.utf_err &&& FEC_WR = 0 ∨ uvpt k (PGNUM utf.utf_fault_va) &&& PTE_COW = 0) := by
  constructor
  · intro h
    by_contra hc
    unfold pgfault at h
    rw [if_neg hc] at h
    rcases hx : sys_page_alloc k 0 PFTEMP (PTE_U ||| PTE_W ||| PTE_P) with ⟨r1, k1⟩
    rw [hx] at h
    dsimp only at h
    by_cases h1 : r1 < 0
    · rw [if_pos h1] at h
      simp only [panic, Outcome.abort.injEq] at h
      exact absurd h.1 (by decide)
    · rw [if_neg h1] at h
      rcases hy : sys_page_map (memmove k1 PFTEMP (ROUNDDOWN utf.utf_fault_va PGSIZE) PGSIZE)
        0 PFTEMP 0 (ROUNDDOWN utf.utf_fault_va PGSIZE) (PTE_U ||| PTE_W ||| PTE_P) with ⟨r3, k3⟩
      rw [hy] at h
      dsimp only at h
      by_cases h3 : r3 < 0
      · rw [if_pos h3] at h
        simp only [panic, Outcome.abort.injEq] at h
        exact absurd h.1 (by decide)
      · rw [if_neg h3] at h
        rcases hz : sys_page_unmap k3 0 PFTEMP with ⟨r4, k4⟩
        rw [hz] at h
        dsimp only at h
        by_cases h4 : r4 < 0
        · rw [if_pos h4] at h
          simp only [panic, Outcome.abort.injEq] at h
          exact absurd h.1 (by decide)
        · rw [if_neg h4] at h
          exact Outcome.noConfusion h
  · intro hc
    unfold pgfault
    rw [if_pos hc]
    rfl

/-- C4 (as amended): for every page below `USTACKTOP` that is marked explicit-share
in the calling process before `fork`, after `fork` (parent path, the primitives
succeeding) the child maps that page to the parent's frame with the parent's
permission bits masked by `PTE_SYSCALL`; so every permission bit inside
`PTE_SYSCALL` (present, writable, user and the software bits, the copy-on-write
bit among them) is the same in both, and the child's entry carries the
copy-on-write bit exactly when the parent's entry does.  The parent's own
mapping of the page is not modified. -/
theorem C4_fork_explicit_share (k : Kernel) (slot : Nat) (rest : List Nat)
    (f : Nat) (frest : List Nat) (pn : Nat)
    (hp : statusOf k k.curenv ≠ none)
    (hfree : k.env_free_list = slot :: rest)
    (hslot : statusOf k ((slot : Int) + 1) = none)
    (hframe : k.page_free_list = f :: frest)
    (hbelow : pn * PGSIZE < USTACKTOP)
    (hpres : present k k.curenv pn)
    (hshare : (pte k k.curenv pn).perm &&& PTE_SHARE ≠ 0) :
    ∃ k5, fork k = Outcome.ret ((slot : Int) + 1) k5 ∧
      present k5 ((slot : Int) + 1) pn ∧ present k5 k.curenv pn ∧
      (pte k5 ((slot : Int) + 1) pn).perm = (pte k k.curenv pn).perm &&& PTE_SYSCALL ∧
      (∀ b, b &&& PTE_SYSCALL = b →
        (pte k5 ((slot : Int) + 1) pn).perm &&& b = (pte k5 k.curenv pn).perm &&& b) ∧
      ((pte k5 ((slot : Int) + 1) pn).perm &&& PTE_COW = 0 ↔
        (pte k k.curenv pn).perm &&& PTE_COW = 0) ∧
      (pte k5 ((slot : Int) + 1) pn).frame = (pte k5 k.curenv pn).frame ∧
      pte k5 k.curenv pn = pte k k.curenv pn ∧
      (∀ i, pde k5 k.curenv i = pde k k.curenv i) := by
  obtain ⟨k5, hk5, hF⟩ := fork_parent_spec k slot rest f frest hp hfree hslot hframe
  have hcp : (slot : Int) + 1 ≠ k.curenv := by
    intro h; rw [h] at hslot; exact hp hslot
  have hlt : pn < NPAGES := (lt_npages_iff pn).mpr hbelow
  have hdup : dupperm (pte k k.curenv pn).perm = (pte k k.curenv pn).perm &&& PTE_SYSCALL := by
    unfold dupperm
    rw [if_pos hshare]
  have hc : pte k5 ((slot : Int) + 1) pn =
      ⟨(pte k k.curenv pn).frame, (pte k k.curenv pn).perm &&& PTE_SYSCALL⟩ := by
    rw [hF.pte, if_pos rfl, if_pos ⟨hlt, hpres⟩, hdup]
  have hpar : pte k5 k.curenv pn = pte k k.curenv pn := by
    rw [hF.pte, if_neg (Ne.symm hcp)]
    have : ¬ (pn < NPAGES ∧ present k k.curenv pn ∧ k.curenv = k.curenv ∧
        remapped (pte k k.curenv pn).perm) := fun h => hshare h.2.2.2.1
    rw [if_neg this]
  have hpde : ∀ i, pde k5 k.curenv i = pde k k.curenv i :=
    fun i => hF.pde_other _ i (Ne.symm hcp)
  refine ⟨k5, hk5, ⟨?_, ?_⟩, ⟨?_, ?_⟩, ?_, ?_, ?_, ?_, hpar, hpde⟩
  · exact hF.pde_child_set pn (Or.inl ⟨hlt, hpres⟩)
  · rw [hc]
    show ((pte k k.curenv pn).perm &&& PTE_SYSCALL) &&& PTE_P ≠ 0
    rw [and_syscall_P]; exact hpres.2
  · rw [hpde]; exact hpres.1
  · rw [hpar]; exact hpres.2
  · rw [hc]
  · intro b hb
    rw [hc, hpar]
    exact and_syscall _ b hb
  · rw [hc]
    show ((pte k k.curenv pn).perm &&& PTE_SYSCALL) &&& PTE_COW = 0 ↔ _
    rw [and_syscall_COW]
  · rw [hc, hpar]

/-- Witness for C4: the explicit-share page 0x802 of the example parent. -/
theorem C4_fork_explicit_share_witness :
    (statusOf demoKernel demoKernel.curenv ≠ none ∧
      demoKernel.env_free_list = 1 :: [] ∧
      statusOf demoKernel (((1 : Nat) : Int) + 1) = none ∧
      demoKernel.page_free_list = 9 :: [10] ∧
      0x802 * PGSIZE < USTACKTOP ∧
      present demoKernel demoKernel.curenv 0x802 ∧
      (pte demoKernel demoKernel.curenv 0x802).perm &&& PTE_SHARE ≠ 0) ∧
    ∃ k5, fork demoKernel = Outcome.ret (((1 : Nat) : Int) + 1) k5 ∧
      present k5 (((1 : Nat) : Int) + 1) 0x802 ∧ present k5 demoKernel.curenv 0x802 ∧
      (pte k5 (((1 : Nat) : Int) + 1) 0x802).perm =
        (pte demoKernel demoKernel.curenv 0x802).perm &&& PTE_SYSCALL ∧
      (∀ b, b &&& PTE_SYSCALL = b →
        (pte k5 (((1 : Nat) : Int) + 1) 0x802).perm &&& b =
          (pte k5 demoKernel.curenv 0x802).perm &&& b) ∧
      ((pte k5 (((1 : Nat) : Int) + 1) 0x802).perm &&& PTE_COW = 0 ↔
        (pte demoKernel demoKernel.curenv 0x802).perm &&& PTE_COW = 0) ∧
      (pte k5 (((1 : Nat) : Int) + 1) 0x802).frame = (pte k5 demoKernel.curenv 0x802).frame ∧
      pte k5 demoKernel.curenv 0x802 = pte demoKernel demoKernel.curenv 0x802 ∧
      (∀ i, pde k5 demoKernel.curenv i = pde demoKernel demoKernel.curenv i) :=
  ⟨⟨by decide, rfl, by decide, rfl, by decide, by decide, by decide⟩,
    C4_fork_explicit_share demoKernel 1 [] 9 [10] 0x802
      (by decide) rfl (by decide) rfl (by decide) (by decide) (by decide)⟩

/-- C4 as stated fails at page 0x803 of the example parent, which is below
`USTACKTOP`, mapped and marked explicit-share, and whose entry also carries the
copy-on-write bit: after `fork` the child's entry carries the copy-on-write bit
too (and the parent's still does), so the bit is not absent. -/
theorem C4_counterexample :
    ∃ k5, fork demoKernel = Outcome.ret 2 k5 ∧
      0x803 * PGSIZE < USTACKTOP ∧ present demoKernel 1 0x803 ∧
      (pte demoKernel 1 0x803).perm &&& PTE_SHARE ≠ 0 ∧
      (pte k5 2 0x803).perm &&& PTE_COW ≠ 0 ∧ (pte k5 1 0x803).perm &&& PTE_COW ≠ 0 := by
  obtain ⟨k5, hk5, hF⟩ := fork_parent_spec demoKernel 1 [] 9 [10]
    (by decide) rfl (by decide) rfl
  refine ⟨k5, hk5, by decide, by decide, by decide, ?_, ?_⟩
  · have h := hF.pte 2 0x803
    rw [h]; decide
  · have h := hF.pte 1 0x803
    rw [h]; decide

/-- C5: invariant I1 holds between parent and child when `fork` returns on the
parent path (the caller exists, a process slot is free, and the free frame `f` is
mapped by no process): the child is created with no mappings, and afterwards
there is no virtual page that both the parent and the child map present and
writable, without the copy-on-write bit, to the same frame, unless that page is
marked explicit-share in the parent (before `fork`, and still after it). -/
theorem C5_fork_no_shared_writable_page (k : Kernel) (slot : Nat) (rest : List Nat)
    (f : Nat) (frest : List Nat)
    (hp : statusOf k k.curenv ≠ none)
    (hfree : k.env_free_list = slot :: rest)
    (hslot : statusOf k ((slot : Int) + 1) = none)
    (hframe : k.page_free_list = f :: frest)
    (hfresh : ∀ e r, present k e r → (pte k e r).frame ≠ f) :
    ∃ k5, fork k = Outcome.ret ((slot : Int) + 1) k5 ∧
      ∀ pn, present k5 k.curenv pn → present k5 ((slot : Int) + 1) pn →
        (pte k5 k.curenv pn).perm &&& PTE_W ≠ 0 → (pte k5 k.curenv pn).perm &&& PTE_COW = 0 →
        (pte k5 ((slot : Int) + 1) pn).perm &&& PTE_W ≠ 0 →
        (pte k5 ((slot : Int) + 1) pn).perm &&& PTE_COW = 0 →
        (pte k5 k.curenv pn).frame = (pte k5 ((slot : Int) + 1) pn).frame →
        (pte k k.curenv pn).perm &&& PTE_SHARE ≠ 0 ∧
          (pte k5 k.curenv pn).perm &&& PTE_SHARE ≠ 0 := by
  obtain ⟨k5, hk5, hF⟩ := fork_parent_spec k slot rest f frest hp hfree hslot hframe
  have hcp : (slot : Int) + 1 ≠ k.curenv := by
    intro h; rw [h] at hslot; exact hp hslot
  refine ⟨k5, hk5, ?_⟩
  intro pn hpp hpc hpw hpcow hcw hccow hfr
  have hc := hF.pte ((slot : Int) + 1) pn
  rw [if_pos rfl] at hc
  have hpar := hF.pte k.curenv pn
  rw [if_neg (Ne.symm hcp)] at hpar
  by_cases hd : pn < NPAGES ∧ present k k.curenv pn
  · rw [if_pos hd] at hc
    by_cases hshare : (pte k k.curenv pn).perm &&& PTE_SHARE ≠ 0
    · refine ⟨hshare, ?_⟩
      have hnr : ¬ (pn < NPAGES ∧ present k k.curenv pn ∧ k.curenv = k.curenv ∧
          remapped (pte k k.curenv pn).perm) := fun h => hshare h.2.2.2.1
      rw [if_neg hnr] at hpar
      rw [hpar]; exact hshare
    · exfalso
      rw [hc] at hcw hccow
      simp only [dupperm, if_neg hshare] at hcw hccow
      by_cases hw : (pte k k.curenv pn).perm &&& PTE_W ≠ 0 ∨
          (pte k k.curenv pn).perm &&& PTE_COW ≠ 0
      · rw [if_pos hw] at hccow
        exact cow_perm_COW hccow
      · rw [if_neg hw, and_syscall_W] at hcw
        exact hw (Or.inl hcw)
  · rw [if_neg hd] at hc
    have hnr : ¬ (pn < NPAGES ∧ present k k.curenv pn ∧ k.curenv = k.curenv ∧
        remapped (pte k k.curenv pn).perm) := fun h => hd ⟨h.1, h.2.1⟩
    rw [if_neg hnr] at hpar
    exfalso
    by_cases hux : pn = UXPAGE
    · rw [if_pos hux] at hc
      have hpk : present k k.curenv pn := by
        refine ⟨?_, ?_⟩
        · rw [← hF.pde_other _ _ (Ne.symm hcp)]; exact hpp.1
        · rw [← hpar]; exact hpp.2
      have := hfresh _ _ hpk
      rw [← hpar, hfr, hc] at this
      exact this rfl
    · rw [if_neg hux] at hc
      have := hpc.2
      rw [hc] at this
      exact this rfl

/-- Witness for C5: the example state, where the free frame 9 is mapped nowhere. -/
theorem C5_fork_no_shared_writable_page_witness :
    (statusOf demoKernel demoKernel.curenv ≠ none ∧
      demoKernel.env_free_list = 1 :: [] ∧
      statusOf demoKernel (((1 : Nat) : Int) + 1) = none ∧
      demoKernel.page_free_list = 9 :: [10] ∧
      ∀ e r, present demoKernel e r → (pte demoKernel e r).frame ≠ 9) ∧
    ∃ k5, fork demoKernel = Outcome.ret (((1 : Nat) : Int) + 1) k5 ∧
      ∀ pn, present k5 demoKernel.curenv pn → present k5 (((1 : Nat) : Int) + 1) pn →
        (pte k5 demoKernel.curenv pn).perm &&& PTE_W ≠ 0 →
        (pte k5 demoKernel.curenv pn).perm &&& PTE_COW = 0 →
        (pte k5 (((1 : Nat) : Int) + 1) pn).perm &&& PTE_W ≠ 0 →
        (pte k5 (((1 : Nat) : Int) + 1) pn).perm &&& PTE_COW = 0 →
        (pte k5 demoKernel.curenv pn).frame = (pte k5 (((1 : Nat) : Int) + 1) pn).frame →
        (pte demoKernel demoKernel.curenv pn).perm &&& PTE_SHARE ≠ 0 ∧
          (pte k5 demoKernel.curenv pn).perm &&& PTE_SHARE ≠ 0 :=
  ⟨⟨by decide, rfl, by decide, rfl, demo_frames_mapped 9 (by decide)⟩,
    C5_fork_no_shared_writable_page demoKernel 1 [] 9 [10]
      (by decide) rfl (by decide) rfl (demo_frames_mapped 9 (by decide))⟩

theorem ustacktop_le_uxstack : USTACKTOP ≤ UXSTACKTOP - PGSIZE := by
  simp only [USTACKTOP, UXSTACKTOP, UTOP, PGSIZE]; decide

/-- The calls `fork` adds to the log on the parent path, as one list: every
mapping call among them is one of the loop's. -/
theorem forkPost_page_maps {k : Kernel} {c : Int} {f : Nat} {frest : List Nat}
    {k5 : Kernel} (hF : ForkPost k c f frest k5) :
    ∃ new, k5.trace = k.trace ++ new ∧
      ∀ ev ∈ new, ∀ s sva d dva perm, ev.call = Syscall.page_map s sva d dva perm →
        dupEvent c (setupStatus k c) ev := by
  obtain ⟨pre, evs, htr, hpre, hevs⟩ := hF.trace
  refine ⟨pre ++ [⟨Syscall.exofork, statusOf k⟩] ++ evs ++
      [⟨Syscall.page_alloc c (UXSTACKTOP - PGSIZE) (PTE_W ||| PTE_U ||| PTE_P), setupStatus k c⟩,
       ⟨Syscall.env_set_pgfault_upcall c CodePtr._pgfault_upcall, setupStatus k c⟩,
       ⟨Syscall.env_set_status c ENV_RUNNABLE, setupStatus k c⟩], ?_, ?_⟩
  · rw [htr]; simp only [List.append_assoc]
  · intro ev hev s sva d dva perm hcall
    simp only [List.mem_append, List.mem_cons, List.mem_singleton, List.not_mem_nil,
      or_false] at hev
    rcases hev with ((hev | hev) | hev) | hev
    · rcases hpre with h | h
      · rw [h] at hev; exact absurd hev (List.not_mem_nil _)
      · rw [h, List.mem_singleton] at hev
        rw [hev] at hcall; exact Syscall.noConfusion hcall
    · rw [hev] at hcall; exact Syscall.noConfusion hcall
    · exact hevs ev hev
    · rcases hev with hev | hev | hev <;>
        (rw [hev] at hcall; exact Syscall.noConfusion hcall)

/-- C6: when `fork` returns on the parent path (the caller exists, a process slot
is free, and the free frame `f` is mapped by no process), the child's
fault-handling stack page `UXSTACKTOP - PGSIZE` is mapped present, user and
writable, without the copy-on-write bit, to the freshly allocated frame `f`.
That frame is distinct from the frame backing the parent's fault-handling stack,
and indeed no other mapping of any process points at it; the parent's own entry
for the page is untouched.  Every mapping call `fork` makes (the calls of the
duplication loop) maps an address below `USTACKTOP`, which lies below the
fault-stack page, so the loop never maps the parent's fault-stack page into the
child. -/
theorem C6_fork_child_fault_stack (k : Kernel) (slot : Nat) (rest : List Nat)
    (f : Nat) (frest : List Nat)
    (hp : statusOf k k.curenv ≠ none)
    (hfree : k.env_free_list = slot :: rest)
    (hslot : statusOf k ((slot : Int) + 1) = none)
    (hframe : k.page_free_list = f :: frest)
    (hfresh : ∀ e r, present k e r → (pte k e r).frame ≠ f) :
    ∃ k5, fork k = Outcome.ret ((slot : Int) + 1) k5 ∧
      UXPAGE * PGSIZE = UXSTACKTOP - PGSIZE ∧
      present k5 ((slot : Int) + 1) UXPAGE ∧
      pte k5 ((slot : Int) + 1) UXPAGE = ⟨f, PTE_W ||| PTE_U ||| PTE_P⟩ ∧
      (pte k5 ((slot : Int) + 1) UXPAGE).perm &&& PTE_COW = 0 ∧
      pte k5 k.curenv UXPAGE = pte k k.curenv UXPAGE ∧
      (present k5 k.curenv UXPAGE →
        (pte k5 k.curenv UXPAGE).frame ≠ (pte k5 ((slot : Int) + 1) UXPAGE).frame) ∧
      (∀ e r, e ≠ (slot : Int) + 1 ∨ r ≠ UXPAGE → present k5 e r → (pte k5 e r).frame ≠ f) ∧
      USTACKTOP ≤ UXSTACKTOP - PGSIZE ∧
      ∃ new, k5.trace = k.trace ++ new ∧
        ∀ ev ∈ new, ∀ s sva d dva perm, ev.call = Syscall.page_map s sva d dva perm →
          sva < USTACKTOP ∧ dva < USTACKTOP := by
  obtain ⟨k5, hk5, hF⟩ := fork_parent_spec k slot rest f frest hp hfree hslot hframe
  have hcp : (slot : Int) + 1 ≠ k.curenv := by
    intro h; rw [h] at hslot; exact hp hslot
  have hc : pte k5 ((slot : Int) + 1) UXPAGE = ⟨f, PTE_W ||| PTE_U ||| PTE_P⟩ := by
    rw [hF.pte, if_pos rfl]
    have h1 : ¬ (UXPAGE < NPAGES ∧ present k k.curenv UXPAGE) := fun h => uxpage_not_lt h.1
    rw [if_neg h1, if_pos rfl]
  have hothers : ∀ e r, e ≠ (slot : Int) + 1 ∨ r ≠ UXPAGE → present k5 e r →
      (pte k5 e r).frame ≠ f := by
    intro e r her hpr
    by_cases he : e = (slot : Int) + 1
    · subst he
      have hr : r ≠ UXPAGE := by
        rcases her with h | h
        · exact absurd rfl h
        · exact h
      have h := hF.pte ((slot : Int) + 1) r
      rw [if_pos rfl] at h
      by_cases hd : r < NPAGES ∧ present k k.curenv r
      · rw [if_pos hd] at h
        rw [h]
        exact hfresh _ _ hd.2
      · rw [if_neg hd, if_neg hr] at h
        have := hpr.2
        rw [h] at this
        exact absurd rfl this
    · have h := hF.pte e r
      rw [if_neg he] at h
      by_cases hd : r < NPAGES ∧ present k k.curenv r ∧ e = k.curenv ∧
          remapped (pte k k.curenv r).perm
      · rw [if_pos hd] at h
        rw [h]
        exact hfresh _ _ hd.2.1
      · rw [if_neg hd] at h
        rw [h]
        apply hfresh
        refine ⟨?_, ?_⟩
        · rw [← hF.pde_other e _ he]; exact hpr.1
        · rw [← h]; exact hpr.2
  obtain ⟨new, hnew, hmaps⟩ := forkPost_page_maps hF
  refine ⟨k5, hk5, uxpage_pgsize, ⟨?_, ?_⟩, hc, ?_, ?_, ?_, hothers, ustacktop_le_uxstack,
    new, hnew, ?_⟩
  · exact hF.pde_child_set UXPAGE (Or.inr rfl)
  · rw [hc]
    show (PTE_W ||| PTE_U ||| PTE_P) &&& PTE_P ≠ 0
    decide
  · rw [hc]
    show (PTE_W ||| PTE_U ||| PTE_P) &&& PTE_COW = 0
    decide
  · rw [hF.pte, if_neg (Ne.symm hcp)]
    have h1 : ¬ (UXPAGE < NPAGES ∧ present k k.curenv UXPAGE ∧ k.curenv = k.curenv ∧
        remapped (pte k k.curenv UXPAGE).perm) := fun h => uxpage_not_lt h.1
    rw [if_neg h1]
  · intro hpr
    rw [hc]
    exact hothers k.curenv UXPAGE (Or.inl (Ne.symm hcp)) hpr
  · intro ev hev s sva d dva perm hcall
    obtain ⟨-, va, d1, perm1, hcall1, hva, -⟩ := hmaps ev hev s sva d dva perm hcall
    rw [hcall1] at hcall
    simp only [Syscall.page_map.injEq] at hcall
    obtain ⟨-, h1, -, h2, -⟩ := hcall
    rw [← h1, ← h2]
    exact ⟨hva, hva⟩

/-- Witness for C6: the example state, whose parent has a fault-handling stack
backed by frame 7. -/
theorem C6_fork_child_fault_stack_witness :
    (statusOf demoKernel demoKernel.curenv ≠ none ∧
      demoKernel.env_free_list = 1 :: [] ∧
      statusOf demoKernel (((1 : Nat) : Int) + 1) = none ∧
      demoKernel.page_free_list = 9 :: [10] ∧
      ∀ e r, present demoKernel e r → (pte demoKernel e r).frame ≠ 9) ∧
    ∃ k5, fork demoKernel = Outcome.ret (((1 : Nat) : Int) + 1) k5 ∧
      UXPAGE * PGSIZE = UXSTACKTOP - PGSIZE ∧
      present k5 (((1 : Nat) : Int) + 1) UXPAGE ∧
      pte k5 (((1 : Nat) : Int) + 1) UXPAGE = ⟨9, PTE_W ||| PTE_U ||| PTE_P⟩ ∧
      (pte k5 (((1 : Nat) : Int) + 1) UXPAGE).perm &&& PTE_COW = 0 ∧
      pte k5 demoKernel.curenv UXPAGE = pte demoKernel demoKernel.curenv UXPAGE ∧
      (present k5 demoKernel.curenv UXPAGE →
        (pte k5 demoKernel.curenv UXPAGE).frame ≠ (pte k5 (((1 : Nat) : Int) + 1) UXPAGE).frame) ∧
      (∀ e r, e ≠ ((1 : Nat) : Int) + 1 ∨ r ≠ UXPAGE → present k5 e r →
        (pte k5 e r).frame ≠ 9) ∧
      USTACKTOP ≤ UXSTACKTOP - PGSIZE ∧
      ∃ new, k5.trace = demoKernel.trace ++ new ∧
        ∀ ev ∈ new, ∀ s sva d dva perm, ev.call = Syscall.page_map s sva d dva perm →
          sva < USTACKTOP ∧ dva < USTACKTOP :=
  ⟨⟨by decide, rfl, by decide, rfl, demo_frames_mapped 9 (by decide)⟩,
    C6_fork_child_fault_stack demoKernel 1 [] 9 [10]
      (by decide) rfl (by decide) rfl (demo_frames_mapped 9 (by decide))⟩

theorem caller_of_registered {k ka : Kernel} {h : CodePtr}
    (hka : set_pgfault_handler k h = Outcome.ret () ka) : statusOf k k.curenv ≠ none := by
  intro hnone
  have hk : k.envs k.curenv = none := by
    unfold statusOf at hnone
    cases hv : k.envs k.curenv with
    | none => rfl
    | some v => rw [hv] at hnone; exact Option.noConfusion hnone
  unfold set_pgfault_handler at hka
  rw [hk] at hka
  exact Outcome.noConfusion hka

/-- C7: if child creation (`sys_exofork`, called in the state `ka` that the
registration of the fault handler leaves) returns a negative value `e`, then
`fork` returns exactly `e` to its caller.  In the state it returns in, the run
states and the set of processes are those before the call (no child has become
visible, no run state has changed), every page table of every process, the
caller's included, is unchanged, no frame has left the free list and no frame
content has changed, no fault entry point of a process other than the caller has
changed, and the only calls logged are the registration of the caller's own fault
entry point (if this was its first registration) and the failed `sys_exofork`. -/
theorem C7_fork_exofork_failure (k ka : Kernel) (e : Int)
    (hka : set_pgfault_handler k CodePtr.pgfault = Outcome.ret () ka)
    (he : (sys_exofork ka).1 = e) (hneg : e < 0) :
    ∃ k1, fork k = Outcome.ret e k1 ∧
      statusOf k1 = statusOf k ∧
      (∀ id r, pte k1 id r = pte k id r) ∧ (∀ id i, pde k1 id i = pde k id i) ∧
      k1.curenv = k.curenv ∧ k1.env_free_list = k.env_free_list ∧
      k1.page_free_list = k.page_free_list ∧ k1.mem = k.mem ∧
      (∀ id, id ≠ k.curenv → upcallOf k1 id = upcallOf k id) ∧
      ∃ pre, k1.trace = k.trace ++ pre ++ [⟨Syscall.exofork, statusOf k⟩] ∧
        (pre = [] ∨
          pre = [⟨Syscall.env_set_pgfault_upcall 0 CodePtr._pgfault_upcall, statusOf k⟩]) := by
  have hp := caller_of_registered hka
  obtain ⟨ka1, hka1, hT, hfl, hst, hrest, htr⟩ :=
    set_pgfault_handler_spec k CodePtr.pgfault hp
  have hkk : ka1 = ka := by
    rw [hka1] at hka
    simp only [Outcome.ret.injEq, true_and] at hka
    exact hka
  subst hkk
  have hempty : ka1.env_free_list = [] := by
    cases hl : ka1.env_free_list with
    | nil => rfl
    | cons slot rest =>
      obtain ⟨k1, hk1, -⟩ := sys_exofork_spec ka1 slot rest hl
      rw [hk1] at he
      simp only at he
      omega
  have hfail := sys_exofork_fail ka1 hempty
  rw [hfail] at he
  simp only at he
  refine ⟨log ka1 Syscall.exofork, ?_, ?_, ?_, ?_, ?_, ?_, ?_, ?_, ?_, ?_⟩
  · unfold fork
    rw [hka1]
    simp only [hfail]
    rw [he, if_pos hneg]
  · exact hst
  · intro id r; exact hT.pte id r
  · intro id i; exact hT.pde id i
  · exact hT.curenv
  · exact hfl
  · exact hT.page_free_list
  · exact hT.mem
  · intro id hid; exact (hrest id hid).1
  · rcases htr with h | h
    · refine ⟨[], ?_, Or.inl rfl⟩
      show ka1.trace ++ [⟨Syscall.exofork, statusOf ka1⟩] = _
      rw [h, hst, List.append_nil]
    · refine ⟨_, ?_, Or.inr rfl⟩
      show ka1.trace ++ [⟨Syscall.exofork, statusOf ka1⟩] = _
      rw [h, hst]

/-- Witness for C7: the example state with no free process slot, where
`sys_exofork` returns `-E_NO_FREE_ENV`. -/
theorem C7_fork_exofork_failure_witness :
    (set_pgfault_handler demoFull CodePtr.pgfault = Outcome.ret () demoFullRegistered ∧
      (sys_exofork demoFullRegistered).1 = -E_NO_FREE_ENV ∧ -E_NO_FREE_ENV < 0) ∧
    ∃ k1, fork demoFull = Outcome.ret (-E_NO_FREE_ENV) k1 ∧
      statusOf k1 = statusOf demoFull ∧
      (∀ id r, pte k1 id r = pte demoFull id r) ∧ (∀ id i, pde k1 id i = pde demoFull id i) ∧
      k1.curenv = demoFull.curenv ∧ k1.env_free_list = demoFull.env_free_list ∧
      k1.page_free_list = demoFull.page_free_list ∧ k1.mem = demoFull.mem ∧
      (∀ id, id ≠ demoFull.curenv → upcallOf k1 id = upcallOf demoFull id) ∧
      ∃ pre, k1.trace = demoFull.trace ++ pre ++ [⟨Syscall.exofork, statusOf demoFull⟩] ∧
        (pre = [] ∨
          pre = [⟨Syscall.env_set_pgfault_upcall 0 CodePtr._pgfault_upcall,
            statusOf demoFull⟩]) :=
  ⟨⟨rfl, rfl, by decide⟩,
    C7_fork_exofork_failure demoFull demoFullRegistered (-E_NO_FREE_ENV) rfl rfl (by decide)⟩

/-- C8 (as amended): every call to `sfork` aborts the calling process in `panic`
with the fixed diagnostic "sfork not implemented", in the very state it was
called in: the `return -E_INVAL` that follows is never reached, nothing is
returned to the caller, and none of the copy-on-write fork path runs (no child is
created, no page is mapped or allocated, no primitive is called). -/
theorem C8_sfork_panics (k : Kernel) :
    sfork k = Outcome.abort "sfork not implemented" k := rfl

/-- C8 as stated fails: in the example state `sfork` does not return `-E_INVAL` (nor
anything else) to its caller; it aborts in `panic`. -/
theorem C8_counterexample :
    sfork demoKernel = Outcome.abort "sfork not implemented" demoKernel ∧
      ¬ ∃ k1, sfork demoKernel = Outcome.ret (-E_INVAL) k1 := by
  refine ⟨rfl, ?_⟩
  rintro ⟨k1, h⟩
  have h2 : sfork demoKernel = Outcome.abort "sfork not implemented" demoKernel := rfl
  rw [h2] at h
  exact Outcome.noConfusion h

theorem pgnum_aligned (addr : Nat) (h : addr % PGSIZE = 0) : PGNUM addr * PGSIZE = addr := by
  simp only [PGNUM, PGSIZE] at h ⊢
  omega

/-- C9: when `fork` returns on the parent path (the caller exists, a process slot
and a frame are free; the child is created with no mappings), for every
page-aligned address below `USTACKTOP` the child maps that page if and only if
the parent had it present before `fork` (page-directory entry and page-table
entry both present), and in that case the child's mapping points at the frame the
parent's mapping pointed at before `fork`.  A page that is read-only and neither
explicit-share nor copy-on-write keeps the parent's permission bits in the child:
the child's entry is the parent's masked by `PTE_SYSCALL`, so every permission bit
inside `PTE_SYSCALL` (present, writable, user, the software bits) is the same;
and the parent's entry for it is left unchanged. -/
theorem C9_fork_duplicates_mapped_pages (k : Kernel) (slot : Nat) (rest : List Nat)
    (f : Nat) (frest : List Nat) (addr : Nat)
    (hp : statusOf k k.curenv ≠ none)
    (hfree : k.env_free_list = slot :: rest)
    (hslot : statusOf k ((slot : Int) + 1) = none)
    (hframe : k.page_free_list = f :: frest)
    (halign : addr % PGSIZE = 0)
    (hbelow : addr < USTACKTOP) :
    ∃ k5, fork k = Outcome.ret ((slot : Int) + 1) k5 ∧
      (present k5 ((slot : Int) + 1) (PGNUM addr) ↔
        (uvpd k (PDX addr) &&& PTE_P ≠ 0 ∧ uvpt k (PGNUM addr) &&& PTE_P ≠ 0)) ∧
      (present k k.curenv (PGNUM addr) →
        (pte k5 ((slot : Int) + 1) (PGNUM addr)).frame = (pte k k.curenv (PGNUM addr)).frame) ∧
      (present k k.curenv (PGNUM addr) →
        (pte k k.curenv (PGNUM addr)).perm &&& PTE_W = 0 →
        (pte k k.curenv (PGNUM addr)).perm &&& PTE_SHARE = 0 →
        (pte k k.curenv (PGNUM addr)).perm &&& PTE_COW = 0 →
        (pte k5 ((slot : Int) + 1) (PGNUM addr)).perm =
            (pte k k.curenv (PGNUM addr)).perm &&& PTE_SYSCALL ∧
          (∀ b, b &&& PTE_SYSCALL = b →
            (pte k5 ((slot : Int) + 1) (PGNUM addr)).perm &&& b =
              (pte k k.curenv (PGNUM addr)).perm &&& b) ∧
          pte k5 k.curenv (PGNUM addr) = pte k k.curenv (PGNUM addr) ∧
          (∀ i, pde k5 k.curenv i = pde k k.curenv i)) := by
  obtain ⟨k5, hk5, hF⟩ := fork_parent_spec k slot rest f frest hp hfree hslot hframe
  have hcp : (slot : Int) + 1 ≠ k.curenv := by
    intro h; rw [h] at hslot; exact hp hslot
  have hpage : PGNUM addr * PGSIZE = addr := pgnum_aligned addr halign
  have hlt : PGNUM addr < NPAGES := by
    rw [lt_npages_iff, hpage]; exact hbelow
  have hread : (uvpd k (PDX addr) &&& PTE_P ≠ 0 ∧ uvpt k (PGNUM addr) &&& PTE_P ≠ 0) ↔
      present k k.curenv (PGNUM addr) := by
    unfold present uvpd uvpt
    rw [hpage]
  have hc := hF.pte ((slot : Int) + 1) (PGNUM addr)
  rw [if_pos rfl] at hc
  refine ⟨k5, hk5, ?_, ?_, ?_⟩
  · rw [hread]
    constructor
    · intro hpc
      by_contra hnp
      have hd : ¬ (PGNUM addr < NPAGES ∧ present k k.curenv (PGNUM addr)) := fun h => hnp h.2
      have hux : PGNUM addr ≠ UXPAGE := by
        intro h; rw [h] at hlt; exact uxpage_not_lt hlt
      rw [if_neg hd, if_neg hux] at hc
      have := hpc.2
      rw [hc] at this
      exact this rfl
    · intro hpk
      rw [if_pos ⟨hlt, hpk⟩] at hc
      refine ⟨hF.pde_child_set _ (Or.inl ⟨hlt, hpk⟩), ?_⟩
      rw [hc]
      exact dupperm_P _ hpk.2
  · intro hpk
    rw [if_pos ⟨hlt, hpk⟩] at hc
    rw [hc]
  · intro hpk hw hs hcow
    rw [if_pos ⟨hlt, hpk⟩] at hc
    have hnw : ¬ ((pte k k.curenv (PGNUM addr)).perm &&& PTE_W ≠ 0 ∨
        (pte k k.curenv (PGNUM addr)).perm &&& PTE_COW ≠ 0) := by
      rintro (h | h)
      · exact h hw
      · exact h hcow
    have hdup : dupperm (pte k k.curenv (PGNUM addr)).perm =
        (pte k k.curenv (PGNUM addr)).perm &&& PTE_SYSCALL := by
      unfold dupperm
      rw [if_neg (not_not.mpr hs), if_neg hnw]
    rw [hdup] at hc
    refine ⟨by rw [hc], ?_, ?_, fun i => hF.pde_other _ i (Ne.symm hcp)⟩
    · intro b hb
      rw [hc]
      exact and_syscall _ b hb
    · rw [hF.pte, if_neg (Ne.symm hcp)]
      have hnr : ¬ (PGNUM addr < NPAGES ∧ present k k.curenv (PGNUM addr) ∧
          k.curenv = k.curenv ∧ remapped (pte k k.curenv (PGNUM addr)).perm) :=
        fun h => hnw h.2.2.2.2
      rw [if_neg hnr]

/-- Witness for C9: the read-only text page at address 0x800000 of the example
parent. -/
theorem C9_fork_duplicates_mapped_pages_witness :
    (statusOf demoKernel demoKernel.curenv ≠ none ∧
      demoKernel.env_free_list = 1 :: [] ∧
      statusOf demoKernel (((1 : Nat) : Int) + 1) = none ∧
      demoKernel.page_free_list = 9 :: [10] ∧
      0x800000 % PGSIZE = 0 ∧ 0x800000 < USTACKTOP) ∧
    ∃ k5, fork demoKernel = Outcome.ret (((1 : Nat) : Int) + 1) k5 ∧
      (present k5 (((1 : Nat) : Int) + 1) (PGNUM 0x800000) ↔
        (uvpd demoKernel (PDX 0x800000) &&& PTE_P ≠ 0 ∧
          uvpt demoKernel (PGNUM 0x800000) &&& PTE_P ≠ 0)) ∧
      (present demoKernel demoKernel.curenv (PGNUM 0x800000) →
        (pte k5 (((1 : Nat) : Int) + 1) (PGNUM 0x800000)).frame =
          (pte demoKernel demoKernel.curenv (PGNUM 0x800000)).frame) ∧
      (present demoKernel demoKernel.curenv (PGNUM 0x800000) →
        (pte demoKernel demoKernel.curenv (PGNUM 0x800000)).perm &&& PTE_W = 0 →
        (pte demoKernel demoKernel.curenv (PGNUM 0x800000)).perm &&& PTE_SHARE = 0 →
        (pte demoKernel demoKernel.curenv (PGNUM 0x800000)).perm &&& PTE_COW = 0 →
        (pte k5 (((1 : Nat) : Int) + 1) (PGNUM 0x800000)).perm =
            (pte demoKernel demoKernel.curenv (PGNUM 0x800000)).perm &&& PTE_SYSCALL ∧
          (∀ b, b &&& PTE_SYSCALL = b →
            (pte k5 (((1 : Nat) : Int) + 1) (PGNUM 0x800000)).perm &&& b =
              (pte demoKernel demoKernel.curenv (PGNUM 0x800000)).perm &&& b) ∧
          pte k5 demoKernel.curenv (PGNUM 0x800000) =
            pte demoKernel demoKernel.curenv (PGNUM 0x800000) ∧
          (∀ i, pde k5 demoKernel.curenv i = pde demoKernel demoKernel.curenv i)) :=
  ⟨⟨by decide, rfl, by decide, rfl, by decide, by decide⟩,
    C9_fork_duplicates_mapped_pages demoKernel 1 [] 9 [10] 0x800000
      (by decide) rfl (by decide) rfl (by decide) (by decide)⟩

/-- C10: on the parent path of `fork` (the caller exists, a process slot and a frame
are free) the child is never runnable while it is being set up.  The calls `fork`
adds to the log are a list `new` followed by one last call.  At the time of every
call in `new` the child is not runnable (it does not exist yet, or exists and is
`ENV_NOT_RUNNABLE`); every mapping into the child, every frame allocation for
the child and every registration of a fault entry point for the child in `new`
is made while the child is `ENV_NOT_RUNNABLE`, the allocation of its
fault-handling stack and the registration of its fault entry point are among
them, and no call in `new` sets a run state.  The last call is
`sys_env_set_status(child, ENV_RUNNABLE)`, made while the child is still
`ENV_NOT_RUNNABLE`; after it `fork` returns the child's identity with the child
runnable. -/
theorem C10_fork_child_runnable_last (k : Kernel) (slot : Nat) (rest : List Nat)
    (f : Nat) (frest : List Nat)
    (hp : statusOf k k.curenv ≠ none)
    (hfree : k.env_free_list = slot :: rest)
    (hslot : statusOf k ((slot : Int) + 1) = none)
    (hframe : k.page_free_list = f :: frest) :
    ∃ k5 new last, fork k = Outcome.ret ((slot : Int) + 1) k5 ∧
      k5.trace = k.trace ++ new ++ [last] ∧
      (∀ ev ∈ new, ev.status ((slot : Int) + 1) ≠ some ENV_RUNNABLE) ∧
      (∀ ev ∈ new, ∀ s sva dva perm,
        ev.call = Syscall.page_map s sva ((slot : Int) + 1) dva perm →
          ev.status ((slot : Int) + 1) = some ENV_NOT_RUNNABLE) ∧
      (∀ ev ∈ new, ∀ va perm, ev.call = Syscall.page_alloc ((slot : Int) + 1) va perm →
        ev.status ((slot : Int) + 1) = some ENV_NOT_RUNNABLE) ∧
      (∀ ev ∈ new, ∀ func, ev.call = Syscall.env_set_pgfault_upcall ((slot : Int) + 1) func →
        ev.status ((slot : Int) + 1) = some ENV_NOT_RUNNABLE) ∧
      (∃ ev ∈ new, ev.call = Syscall.page_alloc ((slot : Int) + 1) (UXSTACKTOP - PGSIZE)
        (PTE_W ||| PTE_U ||| PTE_P)) ∧
      (∃ ev ∈ new, ev.call =
        Syscall.env_set_pgfault_upcall ((slot : Int) + 1) CodePtr._pgfault_upcall) ∧
      (∀ ev ∈ new, ∀ e st, ev.call ≠ Syscall.env_set_status e st) ∧
      last.call = Syscall.env_set_status ((slot : Int) + 1) ENV_RUNNABLE ∧
      last.status ((slot : Int) + 1) = some ENV_NOT_RUNNABLE ∧
      statusOf k5 ((slot : Int) + 1) = some ENV_RUNNABLE := by
  obtain ⟨k5, hk5, hF⟩ := fork_parent_spec k slot rest f frest hp hfree hslot hframe
  obtain ⟨pre, evs, htr, hpre, hevs⟩ := hF.trace
  have hsetup : setupStatus k ((slot : Int) + 1) ((slot : Int) + 1) = some ENV_NOT_RUNNABLE := by
    simp [setupStatus]
  -- the calls before the last one, by origin
  have hcases : ∀ ev ∈ pre ++ [⟨Syscall.exofork, statusOf k⟩] ++ evs ++
      [⟨Syscall.page_alloc ((slot : Int) + 1) (UXSTACKTOP - PGSIZE) (PTE_W ||| PTE_U ||| PTE_P),
          setupStatus k ((slot : Int) + 1)⟩,
        ⟨Syscall.env_set_pgfault_upcall ((slot : Int) + 1) CodePtr._pgfault_upcall,
          setupStatus k ((slot : Int) + 1)⟩],
      (ev.status = statusOf k ∧
        (ev.call = Syscall.exofork ∨
          ev.call = Syscall.env_set_pgfault_upcall 0 CodePtr._pgfault_upcall)) ∨
      (ev.status = setupStatus k ((slot : Int) + 1) ∧
        ((∃ va d perm, ev.call = Syscall.page_map 0 va d va perm) ∨
          ev.call = Syscall.page_alloc ((slot : Int) + 1) (UXSTACKTOP - PGSIZE)
            (PTE_W ||| PTE_U ||| PTE_P) ∨
          ev.call = Syscall.env_set_pgfault_upcall ((slot : Int) + 1)
            CodePtr._pgfault_upcall)) := by
    intro ev hev
    simp only [List.mem_append, List.mem_cons, List.mem_singleton, List.not_mem_nil,
      or_false] at hev
    rcases hev with ((hev | hev) | hev) | hev
    · rcases hpre with h | h
      · rw [h] at hev; exact absurd hev (List.not_mem_nil _)
      · rw [h, List.mem_singleton] at hev
        subst hev
        exact Or.inl ⟨rfl, Or.inr rfl⟩
    · subst hev
      exact Or.inl ⟨rfl, Or.inl rfl⟩
    · obtain ⟨h1, va, d, perm, h2, -, -⟩ := hevs ev hev
      exact Or.inr ⟨h1, Or.inl ⟨va, d, perm, h2⟩⟩
    · rcases hev with hev | hev
      · subst hev
        exact Or.inr ⟨rfl, Or.inr (Or.inl rfl)⟩
      · subst hev
        exact Or.inr ⟨rfl, Or.inr (Or.inr rfl)⟩
  have hc0 : (slot : Int) + 1 ≠ 0 := by omega
  refine ⟨k5, pre ++ [⟨Syscall.exofork, statusOf k⟩] ++ evs ++
      [⟨Syscall.page_alloc ((slot : Int) + 1) (UXSTACKTOP - PGSIZE) (PTE_W ||| PTE_U ||| PTE_P),
          setupStatus k ((slot : Int) + 1)⟩,
        ⟨Syscall.env_set_pgfault_upcall ((slot : Int) + 1) CodePtr._pgfault_upcall,
          setupStatus k ((slot : Int) + 1)⟩],
    ⟨Syscall.env_set_status ((slot : Int) + 1) ENV_RUNNABLE,
      setupStatus k ((slot : Int) + 1)⟩, hk5, ?_, ?_, ?_, ?_, ?_, ?_, ?_, ?_, rfl, hsetup, ?_⟩
  · rw [htr]
    simp only [List.append_assoc, List.cons_append, List.nil_append]
  · intro ev hev
    rcases hcases ev hev with ⟨h, -⟩ | ⟨h, -⟩
    · rw [h, hslot]; exact fun h => Option.noConfusion h
    · rw [h, hsetup]; decide
  · intro ev hev s sva dva perm hcall
    rcases hcases ev hev with ⟨-, h | h⟩ | ⟨h, -⟩
    · rw [h] at hcall; exact Syscall.noConfusion hcall
    · rw [h] at hcall; exact Syscall.noConfusion hcall
    · rw [h, hsetup]
  · intro ev hev va perm hcall
    rcases hcases ev hev with ⟨-, h | h⟩ | ⟨h, -⟩
    · rw [h] at hcall; exact Syscall.noConfusion hcall
    · rw [h] at hcall; exact Syscall.noConfusion hcall
    · rw [h, hsetup]
  · intro ev hev func hcall
    rcases hcases ev hev with ⟨-, h | h⟩ | ⟨h, -⟩
    · rw [h] at hcall; exact Syscall.noConfusion hcall
    · rw [h] at hcall
      simp only [Syscall.env_set_pgfault_upcall.injEq] at hcall
      exact absurd hcall.1.symm hc0
    · rw [h, hsetup]
  · refine ⟨⟨Syscall.page_alloc ((slot : Int) + 1) (UXSTACKTOP - PGSIZE)
      (PTE_W ||| PTE_U ||| PTE_P), setupStatus k ((slot : Int) + 1)⟩, ?_, rfl⟩
    simp
  · refine ⟨⟨Syscall.env_set_pgfault_upcall ((slot : Int) + 1) CodePtr._pgfault_upcall,
      setupStatus k ((slot : Int) + 1)⟩, ?_, rfl⟩
    simp
  · intro ev hev e st hcall
    rcases hcases ev hev with ⟨-, h | h⟩ | ⟨-, ⟨va, d, perm, h⟩ | h | h⟩ <;>
      (rw [h] at hcall; exact Syscall.noConfusion hcall)
  · rw [hF.statusOf, if_pos rfl]

/-- Witness for C10: the example state. -/
theorem C10_fork_child_runnable_last_witness :
    (statusOf demoKernel demoKernel.curenv ≠ none ∧
      demoKernel.env_free_list = 1 :: [] ∧
      statusOf demoKernel (((1 : Nat) : Int) + 1) = none ∧
      demoKernel.page_free_list = 9 :: [10]) ∧
    ∃ k5 new last, fork demoKernel = Outcome.ret (((1 : Nat) : Int) + 1) k5 ∧
      k5.trace = demoKernel.trace ++ new ++ [last] ∧
      (∀ ev ∈ new, ev.status (((1 : Nat) : Int) + 1) ≠ some ENV_RUNNABLE) ∧
      (∀ ev ∈ new, ∀ s sva dva perm,
        ev.call = Syscall.page_map s sva (((1 : Nat) : Int) + 1) dva perm →
          ev.status (((1 : Nat) : Int) + 1) = some ENV_NOT_RUNNABLE) ∧
      (∀ ev ∈ new, ∀ va perm, ev.call = Syscall.page_alloc (((1 : Nat) : Int) + 1) va perm →
        ev.status (((1 : Nat) : Int) + 1) = some ENV_NOT_RUNNABLE) ∧
      (∀ ev ∈ new, ∀ func,
        ev.call = Syscall.env_set_pgfault_upcall (((1 : Nat) : Int) + 1) func →
          ev.status (((1 : Nat) : Int) + 1) = some ENV_NOT_RUNNABLE) ∧
      (∃ ev ∈ new, ev.call = Syscall.page_alloc (((1 : Nat) : Int) + 1) (UXSTACKTOP - PGSIZE)
        (PTE_W ||| PTE_U ||| PTE_P)) ∧
      (∃ ev ∈ new, ev.call =
        Syscall.env_set_pgfault_upcall (((1 : Nat) : Int) + 1) CodePtr._pgfault_upcall) ∧
      (∀ ev ∈ new, ∀ e st, ev.call ≠ Syscall.env_set_status e st) ∧
      last.call = Syscall.env_set_status (((1 : Nat) : Int) + 1) ENV_RUNNABLE ∧
      last.status (((1 : Nat) : Int) + 1) = some ENV_NOT_RUNNABLE ∧
      statusOf k5 (((1 : Nat) : Int) + 1) = some ENV_RUNNABLE :=
  ⟨⟨by decide, rfl, by decide, rfl⟩,
    C10_fork_child_runnable_last demoKernel 1 [] 9 [10] (by decide) rfl (by decide) rfl⟩

end Jos
